import Mathlib

/-!
Verification of the `rust-trig` planar-geometry library.

The source (`src/lib.rs`) computes vector lengths and angles and triangle side
lengths and interior angles from 2D points, caching each derived value in an
`Option<f32>` field on first access.

Machine floats are modelled exactly: an `f32` value is either a finite real
number (`fin r`, where `fin 0` stands for `+0.0`), the negative zero
`negZero`, one of the two infinities, or `nan` (all NaN payloads are
identified).  The arithmetic operations below follow the IEEE-754 rules for
special values while keeping finite arithmetic exact (rounding error is not
modelled).  Methods taking `&mut self` in Rust are modelled as state-passing
functions; an accessor whose Rust body contains `unwrap()` returns an
`Option`, with `none` standing for a panic of that `unwrap`.
-/

open Real

noncomputable section

namespace Trig

open scoped Classical

/-- Model of an `f32` value: a finite real (`fin 0` is `+0.0`), `-0.0`,
`+inf`, `-inf`, or `NaN`. -/
inductive F32 where
  | fin : ℝ → F32
  | negZero : F32
  | inf : F32
  | ninf : F32
  | nan : F32

namespace F32

/-- IEEE-754 subtraction `x - y` (exact on finite values). -/
def sub : F32 → F32 → F32
  | nan, _ => nan
  | _, nan => nan
  | inf, inf => nan
  | inf, _ => inf
  | ninf, ninf => nan
  | ninf, _ => ninf
  | fin _, inf => ninf
  | negZero, inf => ninf
  | fin _, ninf => inf
  | negZero, ninf => inf
  | fin a, fin b => fin (a - b)
  | fin a, negZero => fin a
  | negZero, fin b => if b = 0 then negZero else fin (-b)
  | negZero, negZero => fin 0

/-- IEEE-754 addition `x + y` (exact on finite values). -/
def add : F32 → F32 → F32
  | nan, _ => nan
  | _, nan => nan
  | inf, ninf => nan
  | ninf, inf => nan
  | inf, _ => inf
  | _, inf => inf
  | ninf, _ => ninf
  | _, ninf => ninf
  | fin a, fin b => fin (a + b)
  | fin a, negZero => fin a
  | negZero, fin b => fin b
  | negZero, negZero => negZero

/-- IEEE-754 multiplication `x * y` (exact on finite values). -/
def mul : F32 → F32 → F32
  | nan, _ => nan
  | _, nan => nan
  | inf, inf => inf
  | inf, ninf => ninf
  | ninf, inf => ninf
  | ninf, ninf => inf
  | inf, negZero => nan
  | negZero, inf => nan
  | ninf, negZero => nan
  | negZero, ninf => nan
  | inf, fin b => if b = 0 then nan else if 0 < b then inf else ninf
  | fin a, inf => if a = 0 then nan else if 0 < a then inf else ninf
  | ninf, fin b => if b = 0 then nan else if 0 < b then ninf else inf
  | fin a, ninf => if a = 0 then nan else if 0 < a then ninf else inf
  | negZero, negZero => fin 0
  | negZero, fin b => if b < 0 then fin 0 else negZero
  | fin a, negZero => if a < 0 then fin 0 else negZero
  | fin a, fin b => if a * b = 0 ∧ (a < 0 ∨ b < 0) then negZero else fin (a * b)

/-- IEEE-754 division `x / y` (exact on finite values). -/
def div : F32 → F32 → F32
  | nan, _ => nan
  | _, nan => nan
  | inf, inf => nan
  | inf, ninf => nan
  | ninf, inf => nan
  | ninf, ninf => nan
  | inf, fin b => if 0 ≤ b then inf else ninf
  | inf, negZero => ninf
  | ninf, fin b => if 0 ≤ b then ninf else inf
  | ninf, negZero => inf
  | fin a, inf => if a < 0 then negZero else fin 0
  | negZero, inf => negZero
  | fin a, ninf => if a < 0 then fin 0 else negZero
  | negZero, ninf => fin 0
  | negZero, negZero => nan
  | negZero, fin b => if b = 0 then nan else if 0 < b then negZero else fin 0
  | fin a, negZero => if a = 0 then nan else if 0 < a then ninf else inf
  | fin a, fin b =>
      if b = 0 then (if a = 0 then nan else if 0 < a then inf else ninf)
      else if a = 0 ∧ b < 0 then negZero
      else fin (a / b)

/-- `x.powf(2.0)`: IEEE-754 squaring (exact on finite values);
`(-0.0).powf(2.0) = +0.0`, `(±inf).powf(2.0) = +inf`. -/
def pow2 : F32 → F32
  | nan => nan
  | inf => inf
  | ninf => inf
  | negZero => fin 0
  | fin a => fin (a ^ 2)

/-- `x.sqrt()`: IEEE-754 square root; negative arguments give `NaN`,
`(-0.0).sqrt() = -0.0`. -/
def sqrt : F32 → F32
  | nan => nan
  | inf => inf
  | ninf => nan
  | negZero => negZero
  | fin a => if a < 0 then nan else fin (Real.sqrt a)

/-- `x.atan()`: IEEE-754 arctangent; `atan(±inf) = ±π/2`, `atan(-0.0) = -0.0`. -/
def atan : F32 → F32
  | nan => nan
  | inf => fin (Real.pi / 2)
  | ninf => fin (-(Real.pi / 2))
  | negZero => negZero
  | fin a => fin (Real.arctan a)

/-- `x.acos()`: IEEE-754 arccosine; arguments outside `[-1, 1]` give `NaN`. -/
def acos : F32 → F32
  | nan => nan
  | inf => nan
  | ninf => nan
  | negZero => fin (Real.arccos 0)
  | fin a => if a < -1 ∨ 1 < a then nan else fin (Real.arccos a)

/-- The `f32` constant `std::f32::consts::PI` (modelled as exact `π`). -/
def pi : F32 := fin Real.pi

/-- IEEE-754 equality `x == y` (the `PartialEq` of `f32`): `NaN` is unequal
to everything, `+0.0 == -0.0` is true. -/
def beq : F32 → F32 → Prop
  | fin a, fin b => a = b
  | fin a, negZero => a = 0
  | negZero, fin b => b = 0
  | negZero, negZero => True
  | inf, inf => True
  | ninf, ninf => True
  | _, _ => False

end F32

/-- Equality of `Option<f32>` fields as derived by Rust: both `None`, or both
`Some` of IEEE-equal values. -/
def optBeq : Option F32 → Option F32 → Prop
  | none, none => True
  | some a, some b => F32.beq a b
  | _, _ => False

/-- `struct Point { x: f32, y: f32 }`. -/
structure Point where
  x : F32
  y : F32

/-- The derived `PartialEq` of `Point`: fieldwise IEEE `f32` equality. -/
def Point.beq (p q : Point) : Prop := F32.beq p.x q.x ∧ F32.beq p.y q.y

/-- `struct Vector`: two endpoints plus lazily computed derived fields. -/
structure Vector where
  point_a : Point
  point_b : Point
  length : Option F32
  alpha : Option F32
  beta : Option F32

/-- The derived `PartialEq` of `Vector`: fieldwise equality over all five
fields, including the cached `Option<f32>` fields. -/
def Vector.beq (v w : Vector) : Prop :=
  Point.beq v.point_a w.point_a ∧ Point.beq v.point_b w.point_b ∧
    optBeq v.length w.length ∧ optBeq v.alpha w.alpha ∧ optBeq v.beta w.beta

/-- `Vector::new`: both derived fields unset. -/
def Vector.new (point_a point_b : Point) : Vector :=
  ⟨point_a, point_b, none, none, none⟩

/-- The local `opposite = self.point_a.x - self.point_b.x` computed in
`length` and `set_alpha_beta`. -/
def Vector.opposite (v : Vector) : F32 := v.point_a.x.sub v.point_b.x

/-- The local `adjacent = self.point_a.y - self.point_b.y` computed in
`length` and `set_alpha_beta`. -/
def Vector.adjacent (v : Vector) : F32 := v.point_a.y.sub v.point_b.y

/-- `Vector::length(&mut self) -> f32`: return the cached value if set,
otherwise compute `sqrt(opposite^2 + adjacent^2)`, store and return it.
Returns the value together with the updated state. -/
def Vector.lengthM (v : Vector) : F32 × Vector :=
  match v.length with
  | some f => (f, v)
  | none =>
    let opposite := v.opposite
    let adjacent := v.adjacent
    let hypotenuse := ((opposite.pow2).add (adjacent.pow2)).sqrt
    (hypotenuse, { v with length := some hypotenuse })

/-- `Vector::set_alpha_beta`: store
`beta = atan(opposite^2 / adjacent^2) * 180 / π` and `alpha = 90 - beta`. -/
def Vector.set_alpha_beta (v : Vector) : Vector :=
  let opposite := v.opposite
  let adjacent := v.adjacent
  let beta := (((opposite.pow2).div (adjacent.pow2)).atan.mul (F32.fin 180)).div F32.pi
  { v with alpha := some ((F32.fin 90).sub beta), beta := some beta }

/-- `Vector::alpha(&mut self) -> f32`: cached value if set, else
`set_alpha_beta` followed by `self.alpha.unwrap()` (`none` = panic). -/
def Vector.alphaM (v : Vector) : Option (F32 × Vector) :=
  match v.alpha with
  | some f => some (f, v)
  | none =>
    let v1 := v.set_alpha_beta
    match v1.alpha with
    | some f => some (f, v1)
    | none => none

/-- `Vector::beta(&mut self) -> f32`: cached value if set, else
`set_alpha_beta` followed by `self.beta.unwrap()` (`none` = panic). -/
def Vector.betaM (v : Vector) : Option (F32 × Vector) :=
  match v.beta with
  | some f => some (f, v)
  | none =>
    let v1 := v.set_alpha_beta
    match v1.beta with
    | some f => some (f, v1)
    | none => none

/-- `Vector::init`: force `length`, then `alpha` and `beta`. -/
def Vector.init (v : Vector) : Vector := (v.lengthM.2).set_alpha_beta

/-- `Vector::new_initialized`: construct, then `init`. -/
def Vector.new_initialized (point_a point_b : Point) : Vector :=
  (Vector.new point_a point_b).init

/-- `struct Triangle`: three points plus six lazily computed derived fields. -/
structure Triangle where
  point_a : Point
  point_b : Point
  point_c : Point
  ab : Option F32
  bc : Option F32
  ca : Option F32
  alpha : Option F32
  beta : Option F32
  gamma : Option F32

/-- The derived `PartialEq` of `Triangle`: fieldwise equality over all nine
fields, including the cached `Option<f32>` fields. -/
def Triangle.beq (t u : Triangle) : Prop :=
  Point.beq t.point_a u.point_a ∧ Point.beq t.point_b u.point_b ∧
    Point.beq t.point_c u.point_c ∧ optBeq t.ab u.ab ∧ optBeq t.bc u.bc ∧
    optBeq t.ca u.ca ∧ optBeq t.alpha u.alpha ∧ optBeq t.beta u.beta ∧
    optBeq t.gamma u.gamma

/-- `Triangle::new`: all six derived fields unset. -/
def Triangle.new (point_a point_b point_c : Point) : Triangle :=
  ⟨point_a, point_b, point_c, none, none, none, none, none, none⟩

/-- `Triangle::init_lengths`: set all three side lengths at once, each via a
fresh `Vector`'s `length()`. -/
def Triangle.init_lengths (t : Triangle) : Triangle :=
  { t with
    ab := some ((Vector.new t.point_a t.point_b).lengthM.1)
    bc := some ((Vector.new t.point_b t.point_c).lengthM.1)
    ca := some ((Vector.new t.point_c t.point_a).lengthM.1) }

/-- `Triangle::get_angle(adj1, adj2, opp)`: law of cosines,
`acos((adj1^2 + adj2^2 - opp^2) / (2 * adj1 * adj2)) * 180 / π`. -/
def Triangle.get_angle (adj1 adj2 opp : F32) : F32 :=
  ((((((adj1.pow2).add (adj2.pow2)).sub (opp.pow2)).div
      (((F32.fin 2).mul adj1).mul adj2)).acos.mul (F32.fin 180)).div F32.pi)

/-- `Triangle::ab(&mut self) -> f32`: cached value if set, else
`init_lengths` followed by `self.ab.unwrap()` (`none` = panic). -/
def Triangle.abM (t : Triangle) : Option (F32 × Triangle) :=
  match t.ab with
  | some f => some (f, t)
  | none =>
    let t1 := t.init_lengths
    match t1.ab with
    | some f => some (f, t1)
    | none => none

/-- `Triangle::bc(&mut self) -> f32`: cached value if set, else
`init_lengths` followed by `self.bc.unwrap()` (`none` = panic). -/
def Triangle.bcM (t : Triangle) : Option (F32 × Triangle) :=
  match t.bc with
  | some f => some (f, t)
  | none =>
    let t1 := t.init_lengths
    match t1.bc with
    | some f => some (f, t1)
    | none => none

/-- `Triangle::ca(&mut self) -> f32`: cached value if set, else
`init_lengths` followed by `self.ca.unwrap()` (`none` = panic). -/
def Triangle.caM (t : Triangle) : Option (F32 × Triangle) :=
  match t.ca with
  | some f => some (f, t)
  | none =>
    let t1 := t.init_lengths
    match t1.ca with
    | some f => some (f, t1)
    | none => none

/-- `Triangle::init_angles`: set the three interior angles in order
`alpha`, `beta`, `gamma`, each via the length accessors (argument order as in
the source, left to right), threading the state. -/
def Triangle.init_angles (t : Triangle) : Option Triangle := do
  let (ab1, t1) ← t.abM
  let (ca1, t2) ← t1.caM
  let (bc1, t3) ← t2.bcM
  let t4 := { t3 with alpha := some (Triangle.get_angle ab1 ca1 bc1) }
  let (bc2, t5) ← t4.bcM
  let (ab2, t6) ← t5.abM
  let (ca2, t7) ← t6.caM
  let t8 := { t7 with beta := some (Triangle.get_angle bc2 ab2 ca2) }
  let (ca3, t9) ← t8.caM
  let (bc3, t10) ← t9.bcM
  let (ab3, t11) ← t10.abM
  some { t11 with gamma := some (Triangle.get_angle ca3 bc3 ab3) }

/-- `Triangle::init`: force the lengths group, then the angles group. -/
def Triangle.init (t : Triangle) : Option Triangle := (t.init_lengths).init_angles

/-- `Triangle::new_initialized`: construct, then `init`. -/
def Triangle.new_initialized (point_a point_b point_c : Point) : Option Triangle :=
  (Triangle.new point_a point_b point_c).init

/-- `Triangle::alpha(&mut self) -> f32`: cached value if set, else
`init_angles` followed by `self.alpha.unwrap()` (`none` = panic). -/
def Triangle.alphaM (t : Triangle) : Option (F32 × Triangle) :=
  match t.alpha with
  | some f => some (f, t)
  | none => do
    let t1 ← t.init_angles
    match t1.alpha with
    | some f => some (f, t1)
    | none => none

/-- `Triangle::beta(&mut self) -> f32`: cached value if set, else
`init_angles` followed by `self.beta.unwrap()` (`none` = panic). -/
def Triangle.betaM (t : Triangle) : Option (F32 × Triangle) :=
  match t.beta with
  | some f => some (f, t)
  | none => do
    let t1 ← t.init_angles
    match t1.beta with
    | some f => some (f, t1)
    | none => none

/-- `Triangle::gamma(&mut self) -> f32`: cached value if set, else
`init_angles` followed by `self.gamma.unwrap()` (`none` = panic). -/
def Triangle.gammaM (t : Triangle) : Option (F32 × Triangle) :=
  match t.gamma with
  | some f => some (f, t)
  | none => do
    let t1 ← t.init_angles
    match t1.gamma with
    | some f => some (f, t1)
    | none => none

/-- `math::round::half_away_from_zero(value, scale)` as used by the tests:
round to `scale` decimal places, ties away from zero. -/
def half_away_from_zero (x : ℝ) (scale : ℕ) : ℝ :=
  let m : ℝ := 10 ^ scale
  if 0 ≤ x then ((⌊x * m + 1 / 2⌋ : ℤ) : ℝ) / m
  else -(((⌊(-x) * m + 1 / 2⌋ : ℤ) : ℝ) / m)


namespace F32

@[simp] lemma sub_fin_fin (a b : ℝ) : sub (fin a) (fin b) = fin (a - b) := rfl

@[simp] lemma add_fin_fin (a b : ℝ) : add (fin a) (fin b) = fin (a + b) := rfl

@[simp] lemma pow2_fin (a : ℝ) : pow2 (fin a) = fin (a ^ 2) := rfl

@[simp] lemma atan_fin (a : ℝ) : atan (fin a) = fin (Real.arctan a) := rfl

lemma sqrt_fin {a : ℝ} (h : 0 ≤ a) : sqrt (fin a) = fin (Real.sqrt a) := by
  simp [sqrt, not_lt.2 h]

lemma mul_fin_fin {a b : ℝ} (ha : 0 ≤ a) (hb : 0 ≤ b) :
    mul (fin a) (fin b) = fin (a * b) := by
  have h : ¬(a * b = 0 ∧ (a < 0 ∨ b < 0)) := by
    rintro ⟨-, h | h⟩
    · exact absurd ha (not_le.2 h)
    · exact absurd hb (not_le.2 h)
  simp only [mul]
  rw [if_neg h]

lemma div_fin_fin {a b : ℝ} (hb : 0 < b) : div (fin a) (fin b) = fin (a / b) := by
  have h : ¬(a = 0 ∧ b < 0) := fun h => lt_asymm hb h.2
  simp only [div]
  rw [if_neg hb.ne', if_neg h]

lemma acos_fin {a : ℝ} (h1 : -1 ≤ a) (h2 : a ≤ 1) :
    acos (fin a) = fin (Real.arccos a) := by
  simp [acos, not_lt.2 h1, not_lt.2 h2]

end F32

/-- C1. For every `Vector`, `length()` on first access computes and caches
`hypotenuse = sqrt(opposite^2 + adjacent^2)` with
`opposite = point_a.x - point_b.x` and `adjacent = point_a.y - point_b.y`;
in particular, for `point_a = (1,3)` and `point_b = (3,1)`, `length()`
equals `sqrt 8` exactly. -/
theorem vector_length_computes_hypotenuse :
    (∀ v : Vector, v.length = none →
      v.lengthM =
        ((((v.point_a.x.sub v.point_b.x).pow2).add
            ((v.point_a.y.sub v.point_b.y).pow2)).sqrt,
          { v with length := some ((((v.point_a.x.sub v.point_b.x).pow2).add
              ((v.point_a.y.sub v.point_b.y).pow2)).sqrt) })) ∧
    (Vector.new ⟨F32.fin 1, F32.fin 3⟩ ⟨F32.fin 3, F32.fin 1⟩).lengthM.1
      = F32.fin (Real.sqrt 8) := by
  constructor
  · intro v hv
    unfold Vector.lengthM
    rw [hv]
    rfl
  · simp only [Vector.new, Vector.lengthM, Vector.opposite, Vector.adjacent,
      F32.sub_fin_fin, F32.pow2_fin, F32.add_fin_fin]
    rw [F32.sqrt_fin (by norm_num)]
    norm_num

/-- C5. Eager construction is equivalent to lazy construction followed by
forcing every field: for all points, `new_initialized(...)` equals `new(...)`
after all accessors have been forced (in source order: `length`, `alpha`,
`beta` for `Vector`; `ab`, `bc`, `ca`, `alpha`, `beta`, `gamma` for
`Triangle`), the entire resulting states being equal. -/
theorem eager_equals_forced_lazy :
    (∀ a b : Point,
      ((Vector.new a b).lengthM.2.alphaM.bind fun r1 => r1.2.betaM.map Prod.snd)
        = some (Vector.new_initialized a b)) ∧
    (∀ a b c : Point,
      ((Triangle.new a b c).abM.bind fun r1 => r1.2.bcM.bind fun r2 =>
        r2.2.caM.bind fun r3 => r3.2.alphaM.bind fun r4 =>
        r4.2.betaM.bind fun r5 => r5.2.gammaM.map Prod.snd)
        = Triangle.new_initialized a b c) :=
  ⟨fun _ _ => rfl, fun _ _ _ => rfl⟩

/-- C10. The derived equality on `Vector` and `Triangle` observes the
cached derived fields, not just the endpoints: for every choice of points, the
lazy `new` value compares unequal to the eager `new_initialized` value (the
former has every derived field unset, the latter has them all set), so two
values built from identical points may compare unequal depending on which
accessors have been called. -/
theorem derived_eq_observes_cached_fields :
    (∀ a b : Point, ¬ Vector.beq (Vector.new a b) (Vector.new_initialized a b)) ∧
    (∀ a b c : Point, ∀ t : Triangle, Triangle.new_initialized a b c = some t →
      ¬ Triangle.beq (Triangle.new a b c) t) := by
  constructor
  · rintro a b ⟨-, -, h, -, -⟩
    exact h
  · intro a b c t h hbeq
    have ht := Option.some.inj h
    rw [← ht] at hbeq
    exact hbeq.2.2.2.1

/-- C9 counterexample. The claim "p == q iff the coordinates are
bit-for-bit identical" fails on the code in both directions: a point with a
`NaN` coordinate is bit-for-bit identical to itself yet compares unequal, and
`+0.0` and `-0.0` differ bit-for-bit yet compare equal. -/
theorem point_eq_bitwise_counterexample :
    (¬ Point.beq ⟨F32.nan, F32.fin 0⟩ ⟨F32.nan, F32.fin 0⟩) ∧
    Point.beq ⟨F32.fin 0, F32.fin 0⟩ ⟨F32.negZero, F32.fin 0⟩ ∧
    (⟨F32.fin 0, F32.fin 0⟩ : Point) ≠ ⟨F32.negZero, F32.fin 0⟩ := by
  refine ⟨fun h => h.1, ⟨rfl, rfl⟩, fun h => ?_⟩
  have hx := congrArg Point.x h
  exact F32.noConfusion hx

/-- C9 amended. The derived `PartialEq` on `Point` is coordinatewise
IEEE-754 `f32` equality, not bit-for-bit identity: two points are equal iff
both coordinate pairs are IEEE-equal; any `NaN` coordinate makes a point
unequal even to itself; `+0.0` compares equal to `-0.0` although their bit
patterns differ; and on finite values without signed zeros IEEE equality is
exact numeric equality with no epsilon tolerance. -/
theorem point_eq_is_ieee_eq :
    (∀ p q : Point, Point.beq p q ↔ F32.beq p.x q.x ∧ F32.beq p.y q.y) ∧
    (∀ p : Point, p.x = F32.nan ∨ p.y = F32.nan → ¬ Point.beq p p) ∧
    (∀ a b : ℝ, F32.beq (F32.fin a) (F32.fin b) ↔ a = b) ∧
    F32.beq (F32.fin 0) F32.negZero ∧ ¬ F32.beq F32.nan F32.nan := by
  refine ⟨fun p q => Iff.rfl, fun p h hb => ?_, fun a b => Iff.rfl, rfl, fun h => h⟩
  rcases h with h | h
  · have hx := hb.1
    rw [h] at hx
    exact hx
  · have hy := hb.2
    rw [h] at hy
    exact hy

/-- After `set_alpha_beta` the stored `alpha` is `90 - beta`, so the IEEE sum
`alpha + beta` is `90` whenever `beta` is a finite value or `-0.0`, and `NaN`
whenever `beta` is `NaN` or an infinity. -/
lemma add_sub_fin90 (b : F32) :
    ((F32.fin 90).sub b).add b = F32.nan ∨ ((F32.fin 90).sub b).add b = F32.fin 90 := by
  cases b with
  | fin r =>
    right
    rw [F32.sub_fin_fin, F32.add_fin_fin, sub_add_cancel]
  | negZero => right; rfl
  | inf => left; rfl
  | ninf => left; rfl
  | nan => left; rfl

/-- C6 counterexample. For the degenerate vector with both endpoints
`(0, 0)`, forcing `alpha()` then `beta()` gives the sum `NaN`, not `90`: the
claim's quantification over degenerate endpoint pairs fails on the code. -/
theorem alpha_plus_beta_nan_counterexample :
    ((Vector.new ⟨F32.fin 0, F32.fin 0⟩ ⟨F32.fin 0, F32.fin 0⟩).alphaM.bind fun r1 =>
      r1.2.betaM.map fun r2 => r1.1.add r2.1) = some F32.nan ∧
    F32.nan ≠ F32.fin 90 := by
  constructor
  · simp only [Vector.new, Vector.alphaM, Vector.betaM, Vector.set_alpha_beta,
      Vector.opposite, Vector.adjacent]
    norm_num [F32.sub, F32.pow2, F32.div, F32.atan, F32.mul, F32.add, F32.pi]
  · exact fun h => F32.noConfusion h

/-- C6 amended. For every vector built from two points, after computing
the angles the value `alpha() + beta()` is exactly `90` unless the angle
computation is degenerate, in which case the sum is `NaN` (the exact-90 case
in particular covers every pair of distinct finite points). -/
theorem alpha_plus_beta_eq_90_or_nan :
    ∀ a b : Point, ∃ s : F32,
      ((Vector.new a b).alphaM.bind fun r1 => r1.2.betaM.map fun r2 => r1.1.add r2.1)
        = some s ∧ (s = F32.nan ∨ s = F32.fin 90) := by
  intro a b
  exact ⟨_, rfl, add_sub_fin90 _⟩

/-- Finite `f32` values: finite reals and the two zeros. -/
def F32.isFinite : F32 → Prop
  | fin _ => True
  | negZero => True
  | inf => False
  | ninf => False
  | nan => False

/-- Subtracting IEEE-equal finite values gives a zero. -/
lemma F32.sub_beq_finite {x y : F32} (hx : x.isFinite) (h : F32.beq x y) :
    x.sub y = F32.fin 0 ∨ x.sub y = F32.negZero := by
  cases x with
  | fin a =>
    cases y with
    | fin b =>
      left
      have hab : a = b := h
      rw [F32.sub_fin_fin, hab, sub_self]
    | negZero =>
      left
      have ha : a = 0 := h
      show F32.fin a = F32.fin 0
      rw [ha]
    | inf => exact h.elim
    | ninf => exact h.elim
    | nan => exact h.elim
  | negZero =>
    cases y with
    | fin b =>
      right
      have hb : b = 0 := h
      show (if b = 0 then F32.negZero else F32.fin (-b)) = F32.negZero
      rw [if_pos hb]
    | negZero => left; rfl
    | inf => exact h.elim
    | ninf => exact h.elim
    | nan => exact h.elim
  | inf => exact hx.elim
  | ninf => exact hx.elim
  | nan => exact hx.elim

/-- The square of either zero is `+0.0`. -/
lemma F32.pow2_zero {x : F32} (h : x = F32.fin 0 ∨ x = F32.negZero) :
    x.pow2 = F32.fin 0 := by
  rcases h with h | h <;> rw [h]
  · rw [F32.pow2_fin]
    norm_num
  · rfl

/-- `Vector::alpha` never hits its `unwrap` panic. -/
lemma Vector.alphaM_never_none (v : Vector) : v.alphaM.isSome := by
  cases h : v.alpha <;> simp [Vector.alphaM, h, Vector.set_alpha_beta]

/-- `Vector::beta` never hits its `unwrap` panic. -/
lemma Vector.betaM_never_none (v : Vector) : v.betaM.isSome := by
  cases h : v.beta <;> simp [Vector.betaM, h, Vector.set_alpha_beta]

/-- One `Option` field evolving under an accessor: either untouched or
(re)computed to a `some`. -/
def keepsSome (o o1 : Option F32) : Prop := o1 = o ∨ ∃ x, o1 = some x

lemma keepsSome_some {o o1 : Option F32} (h : keepsSome o o1) {x : F32}
    (hx : o = some x) : ∃ y, o1 = some y := by
  rcases h with h | h
  · exact ⟨x, by rw [h, hx]⟩
  · exact h

/-- Complete description of `Triangle::ab()`: it returns a value, leaves the
points and angle fields untouched, leaves `ab` set, and never unsets `bc` or
`ca`. -/
lemma Triangle.abM_spec (t : Triangle) : ∃ f t1, t.abM = some (f, t1) ∧
    t1.point_a = t.point_a ∧ t1.point_b = t.point_b ∧ t1.point_c = t.point_c ∧
    t1.alpha = t.alpha ∧ t1.beta = t.beta ∧ t1.gamma = t.gamma ∧
    (∃ x, t1.ab = some x) ∧ keepsSome t.bc t1.bc ∧ keepsSome t.ca t1.ca := by
  cases h : t.ab with
  | some f =>
    refine ⟨f, t, ?_, rfl, rfl, rfl, rfl, rfl, rfl, ⟨f, h⟩, Or.inl rfl, Or.inl rfl⟩
    simp [Triangle.abM, h]
  | none =>
    refine ⟨(Vector.new t.point_a t.point_b).lengthM.1, t.init_lengths, ?_,
      rfl, rfl, rfl, rfl, rfl, rfl, ⟨_, rfl⟩, Or.inr ⟨_, rfl⟩, Or.inr ⟨_, rfl⟩⟩
    simp [Triangle.abM, h, Triangle.init_lengths]

/-- Complete description of `Triangle::bc()` (see `Triangle.abM_spec`). -/
lemma Triangle.bcM_spec (t : Triangle) : ∃ f t1, t.bcM = some (f, t1) ∧
    t1.point_a = t.point_a ∧ t1.point_b = t.point_b ∧ t1.point_c = t.point_c ∧
    t1.alpha = t.alpha ∧ t1.beta = t.beta ∧ t1.gamma = t.gamma ∧
    (∃ x, t1.bc = some x) ∧ keepsSome t.ab t1.ab ∧ keepsSome t.ca t1.ca := by
  cases h : t.bc with
  | some f =>
    refine ⟨f, t, ?_, rfl, rfl, rfl, rfl, rfl, rfl, ⟨f, h⟩, Or.inl rfl, Or.inl rfl⟩
    simp [Triangle.bcM, h]
  | none =>
    refine ⟨(Vector.new t.point_b t.point_c).lengthM.1, t.init_lengths, ?_,
      rfl, rfl, rfl, rfl, rfl, rfl, ⟨_, rfl⟩, Or.inr ⟨_, rfl⟩, Or.inr ⟨_, rfl⟩⟩
    simp [Triangle.bcM, h, Triangle.init_lengths]

/-- Complete description of `Triangle::ca()` (see `Triangle.abM_spec`). -/
lemma Triangle.caM_spec (t : Triangle) : ∃ f t1, t.caM = some (f, t1) ∧
    t1.point_a = t.point_a ∧ t1.point_b = t.point_b ∧ t1.point_c = t.point_c ∧
    t1.alpha = t.alpha ∧ t1.beta = t.beta ∧ t1.gamma = t.gamma ∧
    (∃ x, t1.ca = some x) ∧ keepsSome t.ab t1.ab ∧ keepsSome t.bc t1.bc := by
  cases h : t.ca with
  | some f =>
    refine ⟨f, t, ?_, rfl, rfl, rfl, rfl, rfl, rfl, ⟨f, h⟩, Or.inl rfl, Or.inl rfl⟩
    simp [Triangle.caM, h]
  | none =>
    refine ⟨(Vector.new t.point_c t.point_a).lengthM.1, t.init_lengths, ?_,
      rfl, rfl, rfl, rfl, rfl, rfl, ⟨_, rfl⟩, Or.inr ⟨_, rfl⟩, Or.inr ⟨_, rfl⟩⟩
    simp [Triangle.caM, h, Triangle.init_lengths]

/-- `Triangle::init_angles` always succeeds, and afterwards all six derived
fields are set (the length accessors it calls force the lengths group). -/
lemma Triangle.init_angles_spec (t : Triangle) : ∃ t9, t.init_angles = some t9 ∧
    t9.point_a = t.point_a ∧ t9.point_b = t.point_b ∧ t9.point_c = t.point_c ∧
    (∃ x, t9.ab = some x) ∧ (∃ x, t9.bc = some x) ∧ (∃ x, t9.ca = some x) ∧
    (∃ x, t9.alpha = some x) ∧ (∃ x, t9.beta = some x) ∧ (∃ x, t9.gamma = some x) := by
  obtain ⟨f1, t1, h1, ha1, hb1, hc1, hal1, hbe1, hga1, hab1, hbc1, hca1⟩ := t.abM_spec
  obtain ⟨f2, t2, h2, ha2, hb2, hc2, hal2, hbe2, hga2, hca2, hab2, hbc2⟩ := t1.caM_spec
  obtain ⟨f3, t3, h3, ha3, hb3, hc3, hal3, hbe3, hga3, hbc3, hab3, hca3⟩ := t2.bcM_spec
  obtain ⟨f4, t5, h5, ha5, hb5, hc5, hal5, hbe5, hga5, hbc5, hab5, hca5⟩ :=
    Triangle.bcM_spec { t3 with alpha := some (Triangle.get_angle f1 f2 f3) }
  obtain ⟨f5, t6, h6, ha6, hb6, hc6, hal6, hbe6, hga6, hab6, hbc6, hca6⟩ := t5.abM_spec
  obtain ⟨f6, t7, h7, ha7, hb7, hc7, hal7, hbe7, hga7, hca7, hab7, hbc7⟩ := t6.caM_spec
  obtain ⟨f7, t9, h9, ha9, hb9, hc9, hal9, hbe9, hga9, hca9, hab9, hbc9⟩ :=
    Triangle.caM_spec { t7 with beta := some (Triangle.get_angle f4 f5 f6) }
  obtain ⟨f8, t10, h10, ha10, hb10, hc10, hal10, hbe10, hga10, hbc10, hab10, hca10⟩ := t9.bcM_spec
  obtain ⟨f9, t11, h11, ha11, hb11, hc11, hal11, hbe11, hga11, hab11, hbc11, hca11⟩ := t10.abM_spec
  refine ⟨{ t11 with gamma := some (Triangle.get_angle f7 f8 f9) }, ?_, ?_, ?_, ?_, ?_, ?_, ?_, ?_, ?_, ?_⟩
  · simp only [Triangle.init_angles, h1, h2, h3, h5, h6, h7, h9, h10, h11,
      Option.bind_eq_bind, Option.some_bind]
  · simp only [ha11, ha10, ha9, ha7, ha6, ha5, ha3, ha2, ha1]
  · simp only [hb11, hb10, hb9, hb7, hb6, hb5, hb3, hb2, hb1]
  · simp only [hc11, hc10, hc9, hc7, hc6, hc5, hc3, hc2, hc1]
  · exact hab11
  · obtain ⟨x, hx⟩ := hbc10
    exact keepsSome_some hbc11 hx
  · obtain ⟨x, hx⟩ := hca9
    obtain ⟨y, hy⟩ := keepsSome_some hca10 hx
    exact keepsSome_some hca11 hy
  · refine ⟨Triangle.get_angle f1 f2 f3, ?_⟩
    simp only [hal11, hal10, hal9, hal7, hal6, hal5]
  · refine ⟨Triangle.get_angle f4 f5 f6, ?_⟩
    simp only [hbe11, hbe10, hbe9]
  · exact ⟨Triangle.get_angle f7 f8 f9, rfl⟩

/-- `Triangle::ab` never hits its `unwrap` panic. -/
lemma Triangle.abM_isSome (t : Triangle) : t.abM.isSome := by
  obtain ⟨f, t1, h, -⟩ := t.abM_spec
  rw [h]
  rfl

/-- `Triangle::bc` never hits its `unwrap` panic. -/
lemma Triangle.bcM_isSome (t : Triangle) : t.bcM.isSome := by
  obtain ⟨f, t1, h, -⟩ := t.bcM_spec
  rw [h]
  rfl

/-- `Triangle::ca` never hits its `unwrap` panic. -/
lemma Triangle.caM_isSome (t : Triangle) : t.caM.isSome := by
  obtain ⟨f, t1, h, -⟩ := t.caM_spec
  rw [h]
  rfl

/-- `Triangle::alpha` never hits its `unwrap` panic. -/
lemma Triangle.alphaM_isSome (t : Triangle) : t.alphaM.isSome := by
  cases h : t.alpha with
  | some f => simp [Triangle.alphaM, h]
  | none =>
    obtain ⟨t9, h9, -, -, -, -, -, -, ⟨x, hx⟩, -, -⟩ := t.init_angles_spec
    simp [Triangle.alphaM, h, h9, hx]

/-- `Triangle::beta` never hits its `unwrap` panic. -/
lemma Triangle.betaM_isSome (t : Triangle) : t.betaM.isSome := by
  cases h : t.beta with
  | some f => simp [Triangle.betaM, h]
  | none =>
    obtain ⟨t9, h9, -, -, -, -, -, -, -, ⟨x, hx⟩, -⟩ := t.init_angles_spec
    simp [Triangle.betaM, h, h9, hx]

/-- `Triangle::gamma` never hits its `unwrap` panic. -/
lemma Triangle.gammaM_isSome (t : Triangle) : t.gammaM.isSome := by
  cases h : t.gamma with
  | some f => simp [Triangle.gammaM, h]
  | none =>
    obtain ⟨t9, h9, -, -, -, -, -, -, -, -, ⟨x, hx⟩⟩ := t.init_angles_spec
    simp [Triangle.gammaM, h, h9, hx]

/-- `Triangle::new_initialized` always returns a value. -/
lemma Triangle.new_initialized_isSome (a b c : Point) :
    (Triangle.new_initialized a b c).isSome := by
  obtain ⟨t9, h9, -⟩ := Triangle.init_angles_spec (Triangle.new a b c).init_lengths
  show ((Triangle.new a b c).init_lengths).init_angles.isSome
  rw [h9]
  rfl

/-- The degenerate-vector computation: IEEE-equal finite endpoints give
`length() = +0.0` and `alpha()`, `beta()` both `NaN`. -/
lemma degenerate_vector_eval {p q : Point} (hx : p.x.isFinite) (hy : p.y.isFinite)
    (hpq : Point.beq p q) :
    (Vector.new p q).lengthM.1 = F32.fin 0 ∧
    (Vector.new p q).alphaM.map Prod.fst = some F32.nan ∧
    (Vector.new p q).betaM.map Prod.fst = some F32.nan := by
  have ho : (Vector.new p q).opposite.pow2 = F32.fin 0 :=
    F32.pow2_zero (F32.sub_beq_finite hx hpq.1)
  have ha : (Vector.new p q).adjacent.pow2 = F32.fin 0 :=
    F32.pow2_zero (F32.sub_beq_finite hy hpq.2)
  have hbeta :
      ((((Vector.new p q).opposite.pow2).div ((Vector.new p q).adjacent.pow2)).atan.mul
        (F32.fin 180)).div F32.pi = F32.nan := by
    rw [ho, ha]
    norm_num [F32.div, F32.atan, F32.mul, F32.pi]
  refine ⟨?_, ?_, ?_⟩
  · show (((Vector.new p q).opposite.pow2).add ((Vector.new p q).adjacent.pow2)).sqrt
      = F32.fin 0
    rw [ho, ha, F32.add_fin_fin]
    norm_num [F32.sqrt_fin le_rfl, Real.sqrt_zero]
  · show some ((F32.fin 90).sub
      (((((Vector.new p q).opposite.pow2).div ((Vector.new p q).adjacent.pow2)).atan.mul
        (F32.fin 180)).div F32.pi)) = some F32.nan
    rw [hbeta]
    rfl
  · show some
      ((((((Vector.new p q).opposite.pow2).div ((Vector.new p q).adjacent.pow2)).atan.mul
        (F32.fin 180)).div F32.pi)) = some F32.nan
    rw [hbeta]

/-- C7 counterexample. A point with an infinite coordinate is IEEE-equal
to itself, yet the zero-length claim fails there: the vector between two such
equal points has `length() = NaN`, not `0.0`. -/
theorem degenerate_inf_point_counterexample :
    Point.beq ⟨F32.inf, F32.fin 0⟩ ⟨F32.inf, F32.fin 0⟩ ∧
    (Vector.new ⟨F32.inf, F32.fin 0⟩ ⟨F32.inf, F32.fin 0⟩).lengthM.1 = F32.nan ∧
    F32.nan ≠ F32.fin 0 := by
  refine ⟨⟨trivial, rfl⟩, rfl, fun h => F32.noConfusion h⟩

/-- C7 amended. Every public operation is total: no accessor ever hits
its internal `unwrap` panic (the group initialization immediately preceding
each `unwrap` sets the field), and eager construction always returns; for
degenerate inputs the IEEE-754 special values propagate instead of errors: a
vector whose endpoints are IEEE-equal and finite has `length() = 0.0` and
`alpha()`, `beta()` both `NaN` (with an infinite coordinate the length
degenerates further, to `NaN`, as the counterexample records). -/
theorem accessors_total_no_panic :
    (∀ v : Vector, v.alphaM.isSome) ∧ (∀ v : Vector, v.betaM.isSome) ∧
    (∀ t : Triangle, t.abM.isSome) ∧ (∀ t : Triangle, t.bcM.isSome) ∧
    (∀ t : Triangle, t.caM.isSome) ∧ (∀ t : Triangle, t.alphaM.isSome) ∧
    (∀ t : Triangle, t.betaM.isSome) ∧ (∀ t : Triangle, t.gammaM.isSome) ∧
    (∀ a b c : Point, (Triangle.new_initialized a b c).isSome) ∧
    (∀ p q : Point, p.x.isFinite → p.y.isFinite → Point.beq p q →
      (Vector.new p q).lengthM.1 = F32.fin 0 ∧
      (Vector.new p q).alphaM.map Prod.fst = some F32.nan ∧
      (Vector.new p q).betaM.map Prod.fst = some F32.nan) :=
  ⟨Vector.alphaM_never_none, Vector.betaM_never_none, Triangle.abM_isSome,
    Triangle.bcM_isSome, Triangle.caM_isSome, Triangle.alphaM_isSome,
    Triangle.betaM_isSome, Triangle.gammaM_isSome, Triangle.new_initialized_isSome,
    fun _ _ hx hy hpq => degenerate_vector_eval hx hy hpq⟩

/-- Cached branch of `Vector::length`. -/
lemma Vector.lengthM_of_some {v : Vector} {f : F32} (h : v.length = some f) :
    v.lengthM = (f, v) := by
  unfold Vector.lengthM
  rw [h]

/-- Computing branch of `Vector::length`. -/
lemma Vector.lengthM_of_none {v : Vector} (h : v.length = none) :
    v.lengthM = (((v.opposite.pow2).add (v.adjacent.pow2)).sqrt,
      { v with length := some (((v.opposite.pow2).add (v.adjacent.pow2)).sqrt) }) := by
  unfold Vector.lengthM
  rw [h]

/-- Cached branch of `Vector::alpha`. -/
lemma Vector.alphaM_cached {v : Vector} {f : F32} (h : v.alpha = some f) :
    v.alphaM = some (f, v) := by
  unfold Vector.alphaM
  rw [h]

/-- Computing branch of `Vector::alpha`. -/
lemma Vector.alphaM_sets_both {v : Vector} (h : v.alpha = none) :
    v.alphaM = some ((F32.fin 90).sub
        ((((v.opposite.pow2).div (v.adjacent.pow2)).atan.mul (F32.fin 180)).div F32.pi),
      v.set_alpha_beta) := by
  unfold Vector.alphaM
  rw [h]
  rfl

/-- Cached branch of `Vector::beta`. -/
lemma Vector.betaM_cached {v : Vector} {f : F32} (h : v.beta = some f) :
    v.betaM = some (f, v) := by
  unfold Vector.betaM
  rw [h]

/-- Computing branch of `Vector::beta`. -/
lemma Vector.betaM_sets_both {v : Vector} (h : v.beta = none) :
    v.betaM = some (
      (((v.opposite.pow2).div (v.adjacent.pow2)).atan.mul (F32.fin 180)).div F32.pi,
      v.set_alpha_beta) := by
  unfold Vector.betaM
  rw [h]
  rfl

/-- Cached branch of `Triangle::ab`. -/
lemma Triangle.abM_of_some {t : Triangle} {f : F32} (h : t.ab = some f) :
    t.abM = some (f, t) := by
  unfold Triangle.abM
  rw [h]

/-- Computing branch of `Triangle::ab`. -/
lemma Triangle.abM_of_none {t : Triangle} (h : t.ab = none) :
    t.abM = some ((Vector.new t.point_a t.point_b).lengthM.1, t.init_lengths) := by
  unfold Triangle.abM
  rw [h]
  rfl

/-- Cached branch of `Triangle::bc`. -/
lemma Triangle.bcM_of_some {t : Triangle} {f : F32} (h : t.bc = some f) :
    t.bcM = some (f, t) := by
  unfold Triangle.bcM
  rw [h]

/-- Computing branch of `Triangle::bc`. -/
lemma Triangle.bcM_of_none {t : Triangle} (h : t.bc = none) :
    t.bcM = some ((Vector.new t.point_b t.point_c).lengthM.1, t.init_lengths) := by
  unfold Triangle.bcM
  rw [h]
  rfl

/-- Cached branch of `Triangle::ca`. -/
lemma Triangle.caM_of_some {t : Triangle} {f : F32} (h : t.ca = some f) :
    t.caM = some (f, t) := by
  unfold Triangle.caM
  rw [h]

/-- Computing branch of `Triangle::ca`. -/
lemma Triangle.caM_of_none {t : Triangle} (h : t.ca = none) :
    t.caM = some ((Vector.new t.point_c t.point_a).lengthM.1, t.init_lengths) := by
  unfold Triangle.caM
  rw [h]
  rfl

/-- `init_angles` on a triangle whose lengths group is fully cached: the
three angles are written by the law of cosines with the mapping
`alpha = f(ab, ca, bc)`, `beta = f(bc, ab, ca)`, `gamma = f(ca, bc, ab)`. -/
lemma Triangle.init_angles_of_some {t : Triangle} {f1 f2 f3 : F32}
    (h1 : t.ab = some f1) (h2 : t.bc = some f2) (h3 : t.ca = some f3) :
    t.init_angles = some { t with
      alpha := some (Triangle.get_angle f1 f3 f2)
      beta := some (Triangle.get_angle f2 f1 f3)
      gamma := some (Triangle.get_angle f3 f2 f1) } := by
  obtain ⟨pa, pb, pc, ab, bc, ca, al, be, ga⟩ := t
  simp only at h1 h2 h3
  subst h1 h2 h3
  rfl

/-- `init_angles` on a triangle whose `ab` is unset: the first length
accessor forces the whole lengths group, then the angles are computed from
the freshly cached lengths. -/
lemma Triangle.init_angles_of_none {t : Triangle} (h1 : t.ab = none) :
    t.init_angles = some { t with
      ab := some ((Vector.new t.point_a t.point_b).lengthM.1)
      bc := some ((Vector.new t.point_b t.point_c).lengthM.1)
      ca := some ((Vector.new t.point_c t.point_a).lengthM.1)
      alpha := some (Triangle.get_angle ((Vector.new t.point_a t.point_b).lengthM.1)
        ((Vector.new t.point_c t.point_a).lengthM.1)
        ((Vector.new t.point_b t.point_c).lengthM.1))
      beta := some (Triangle.get_angle ((Vector.new t.point_b t.point_c).lengthM.1)
        ((Vector.new t.point_a t.point_b).lengthM.1)
        ((Vector.new t.point_c t.point_a).lengthM.1))
      gamma := some (Triangle.get_angle ((Vector.new t.point_c t.point_a).lengthM.1)
        ((Vector.new t.point_b t.point_c).lengthM.1)
        ((Vector.new t.point_a t.point_b).lengthM.1)) } := by
  obtain ⟨pa, pb, pc, ab, bc, ca, al, be, ga⟩ := t
  simp only at h1
  subst h1
  rfl

/-- Cached branch of `Triangle::alpha`. -/
lemma Triangle.alphaM_of_some {t : Triangle} {f : F32} (h : t.alpha = some f) :
    t.alphaM = some (f, t) := by
  unfold Triangle.alphaM
  rw [h]

/-- Computing branch of `Triangle::alpha`, given `init_angles`'s outcome. -/
lemma Triangle.alphaM_of_none {t t1 : Triangle} {x : F32} (h : t.alpha = none)
    (h1 : t.init_angles = some t1) (hx : t1.alpha = some x) :
    t.alphaM = some (x, t1) := by
  unfold Triangle.alphaM
  rw [h]
  simp only [h1, Option.bind_eq_bind, Option.some_bind, hx]

/-- Cached branch of `Triangle::beta`. -/
lemma Triangle.betaM_of_some {t : Triangle} {f : F32} (h : t.beta = some f) :
    t.betaM = some (f, t) := by
  unfold Triangle.betaM
  rw [h]

/-- Computing branch of `Triangle::beta`, given `init_angles`'s outcome. -/
lemma Triangle.betaM_of_none {t t1 : Triangle} {x : F32} (h : t.beta = none)
    (h1 : t.init_angles = some t1) (hx : t1.beta = some x) :
    t.betaM = some (x, t1) := by
  unfold Triangle.betaM
  rw [h]
  simp only [h1, Option.bind_eq_bind, Option.some_bind, hx]

/-- Cached branch of `Triangle::gamma`. -/
lemma Triangle.gammaM_of_some {t : Triangle} {f : F32} (h : t.gamma = some f) :
    t.gammaM = some (f, t) := by
  unfold Triangle.gammaM
  rw [h]

/-- Computing branch of `Triangle::gamma`, given `init_angles`'s outcome. -/
lemma Triangle.gammaM_of_none {t t1 : Triangle} {x : F32} (h : t.gamma = none)
    (h1 : t.init_angles = some t1) (hx : t1.gamma = some x) :
    t.gammaM = some (x, t1) := by
  unfold Triangle.gammaM
  rw [h]
  simp only [h1, Option.bind_eq_bind, Option.some_bind, hx]

/-- `Vector` states reachable through the public API (`new`,
`new_initialized`, `init`, `length`, `alpha`, `beta`). -/
inductive Vector.Reachable : Vector → Prop where
  | of_new (a b : Point) : Vector.Reachable (Vector.new a b)
  | of_new_initialized (a b : Point) : Vector.Reachable (Vector.new_initialized a b)
  | of_init {v : Vector} : Vector.Reachable v → Vector.Reachable v.init
  | of_length {v : Vector} : Vector.Reachable v → Vector.Reachable v.lengthM.2
  | of_alpha {v : Vector} {f : F32} {v1 : Vector} :
      Vector.Reachable v → v.alphaM = some (f, v1) → Vector.Reachable v1
  | of_beta {v : Vector} {f : F32} {v1 : Vector} :
      Vector.Reachable v → v.betaM = some (f, v1) → Vector.Reachable v1

/-- `Triangle` states reachable through the public API. -/
inductive Triangle.Reachable : Triangle → Prop where
  | of_new (a b c : Point) : Triangle.Reachable (Triangle.new a b c)
  | of_new_initialized {a b c : Point} {t : Triangle} :
      Triangle.new_initialized a b c = some t → Triangle.Reachable t
  | of_ab {t : Triangle} {f : F32} {t1 : Triangle} :
      Triangle.Reachable t → t.abM = some (f, t1) → Triangle.Reachable t1
  | of_bc {t : Triangle} {f : F32} {t1 : Triangle} :
      Triangle.Reachable t → t.bcM = some (f, t1) → Triangle.Reachable t1
  | of_ca {t : Triangle} {f : F32} {t1 : Triangle} :
      Triangle.Reachable t → t.caM = some (f, t1) → Triangle.Reachable t1
  | of_alpha {t : Triangle} {f : F32} {t1 : Triangle} :
      Triangle.Reachable t → t.alphaM = some (f, t1) → Triangle.Reachable t1
  | of_beta {t : Triangle} {f : F32} {t1 : Triangle} :
      Triangle.Reachable t → t.betaM = some (f, t1) → Triangle.Reachable t1
  | of_gamma {t : Triangle} {f : F32} {t1 : Triangle} :
      Triangle.Reachable t → t.gammaM = some (f, t1) → Triangle.Reachable t1

/-- Monotone evolution of a `Vector` state: the endpoints never change, and a
derived field that is computed keeps its exact value. -/
def Vector.Preserves (v v1 : Vector) : Prop :=
  v1.point_a = v.point_a ∧ v1.point_b = v.point_b ∧
    (∀ x, v.length = some x → v1.length = some x) ∧
    (∀ x, v.alpha = some x → v1.alpha = some x) ∧
    (∀ x, v.beta = some x → v1.beta = some x)

/-- Monotone evolution of a `Triangle` state. -/
def Triangle.Preserves (t t1 : Triangle) : Prop :=
  t1.point_a = t.point_a ∧ t1.point_b = t.point_b ∧ t1.point_c = t.point_c ∧
    (∀ x, t.ab = some x → t1.ab = some x) ∧
    (∀ x, t.bc = some x → t1.bc = some x) ∧
    (∀ x, t.ca = some x → t1.ca = some x) ∧
    (∀ x, t.alpha = some x → t1.alpha = some x) ∧
    (∀ x, t.beta = some x → t1.beta = some x) ∧
    (∀ x, t.gamma = some x → t1.gamma = some x)

/-- The lengths group `{ab, bc, ca}` is all unset or all computed. -/
def Triangle.LenUniform (t : Triangle) : Prop :=
  (t.ab = none ∧ t.bc = none ∧ t.ca = none) ∨
    ((∃ x, t.ab = some x) ∧ (∃ x, t.bc = some x) ∧ (∃ x, t.ca = some x))

/-- The angles group `{alpha, beta, gamma}` is all unset or all computed. -/
def Triangle.AngUniform (t : Triangle) : Prop :=
  (t.alpha = none ∧ t.beta = none ∧ t.gamma = none) ∨
    ((∃ x, t.alpha = some x) ∧ (∃ x, t.beta = some x) ∧ (∃ x, t.gamma = some x))

/-- In a reachable `Vector`, `alpha` and `beta` are set or unset together
(`set_alpha_beta` always writes both). -/
lemma Vector.Reachable.angle_group {v : Vector} (h : v.Reachable) :
    v.alpha = none ↔ v.beta = none := by
  induction h with
  | of_new a b => simp [Vector.new]
  | of_new_initialized a b =>
    simp [Vector.new_initialized, Vector.init, Vector.set_alpha_beta]
  | of_init hv ih =>
    rename_i v
    simp [Vector.init, Vector.set_alpha_beta]
  | of_length hv ih =>
    rename_i v
    cases hl : v.length with
    | some g => rw [Vector.lengthM_of_some hl]; exact ih
    | none => rw [Vector.lengthM_of_none hl]; exact ih
  | of_alpha hv heq ih =>
    rename_i v f v1
    cases ha : v.alpha with
    | some g =>
      rw [Vector.alphaM_cached ha, Option.some.injEq, Prod.mk.injEq] at heq
      obtain ⟨-, rfl⟩ := heq
      exact ih
    | none =>
      rw [Vector.alphaM_sets_both ha, Option.some.injEq, Prod.mk.injEq] at heq
      obtain ⟨-, rfl⟩ := heq
      simp [Vector.set_alpha_beta]
  | of_beta hv heq ih =>
    rename_i v f v1
    cases hb : v.beta with
    | some g =>
      rw [Vector.betaM_cached hb, Option.some.injEq, Prod.mk.injEq] at heq
      obtain ⟨-, rfl⟩ := heq
      exact ih
    | none =>
      rw [Vector.betaM_sets_both hb, Option.some.injEq, Prod.mk.injEq] at heq
      obtain ⟨-, rfl⟩ := heq
      simp [Vector.set_alpha_beta]

/-- In a reachable `Triangle`, each derived-field group is all unset or all
computed. -/
lemma Triangle.Reachable.uniform {t : Triangle} (h : t.Reachable) :
    t.LenUniform ∧ t.AngUniform := by
  induction h with
  | of_new a b c =>
    exact ⟨Or.inl ⟨rfl, rfl, rfl⟩, Or.inl ⟨rfl, rfl, rfl⟩⟩
  | of_new_initialized heq =>
    rename_i a b c t
    rw [show Triangle.new_initialized a b c
        = ((Triangle.new a b c).init_lengths).init_angles from rfl,
      Triangle.init_angles_of_some rfl rfl rfl] at heq
    obtain rfl := Option.some.inj heq
    exact ⟨Or.inr ⟨⟨_, rfl⟩, ⟨_, rfl⟩, ⟨_, rfl⟩⟩, Or.inr ⟨⟨_, rfl⟩, ⟨_, rfl⟩, ⟨_, rfl⟩⟩⟩
  | of_ab hr heq ih =>
    rename_i t f t1
    cases hab : t.ab with
    | some g =>
      rw [Triangle.abM_of_some hab, Option.some.injEq, Prod.mk.injEq] at heq
      obtain ⟨-, rfl⟩ := heq
      exact ih
    | none =>
      rw [Triangle.abM_of_none hab, Option.some.injEq, Prod.mk.injEq] at heq
      obtain ⟨-, rfl⟩ := heq
      exact ⟨Or.inr ⟨⟨_, rfl⟩, ⟨_, rfl⟩, ⟨_, rfl⟩⟩, ih.2⟩
  | of_bc hr heq ih =>
    rename_i t f t1
    cases hbc : t.bc with
    | some g =>
      rw [Triangle.bcM_of_some hbc, Option.some.injEq, Prod.mk.injEq] at heq
      obtain ⟨-, rfl⟩ := heq
      exact ih
    | none =>
      rw [Triangle.bcM_of_none hbc, Option.some.injEq, Prod.mk.injEq] at heq
      obtain ⟨-, rfl⟩ := heq
      exact ⟨Or.inr ⟨⟨_, rfl⟩, ⟨_, rfl⟩, ⟨_, rfl⟩⟩, ih.2⟩
  | of_ca hr heq ih =>
    rename_i t f t1
    cases hca : t.ca with
    | some g =>
      rw [Triangle.caM_of_some hca, Option.some.injEq, Prod.mk.injEq] at heq
      obtain ⟨-, rfl⟩ := heq
      exact ih
    | none =>
      rw [Triangle.caM_of_none hca, Option.some.injEq, Prod.mk.injEq] at heq
      obtain ⟨-, rfl⟩ := heq
      exact ⟨Or.inr ⟨⟨_, rfl⟩, ⟨_, rfl⟩, ⟨_, rfl⟩⟩, ih.2⟩
  | of_alpha hr heq ih =>
    rename_i t f t1
    cases hal : t.alpha with
    | some g =>
      rw [Triangle.alphaM_of_some hal, Option.some.injEq, Prod.mk.injEq] at heq
      obtain ⟨-, rfl⟩ := heq
      exact ih
    | none =>
      rcases ih.1 with ⟨l1, l2, l3⟩ | ⟨⟨x1, e1⟩, ⟨x2, e2⟩, ⟨x3, e3⟩⟩
      · rw [Triangle.alphaM_of_none hal (Triangle.init_angles_of_none l1) rfl,
          Option.some.injEq, Prod.mk.injEq] at heq
        obtain ⟨-, rfl⟩ := heq
        exact ⟨Or.inr ⟨⟨_, rfl⟩, ⟨_, rfl⟩, ⟨_, rfl⟩⟩, Or.inr ⟨⟨_, rfl⟩, ⟨_, rfl⟩, ⟨_, rfl⟩⟩⟩
      · rw [Triangle.alphaM_of_none hal (Triangle.init_angles_of_some e1 e2 e3) rfl,
          Option.some.injEq, Prod.mk.injEq] at heq
        obtain ⟨-, rfl⟩ := heq
        exact ⟨Or.inr ⟨⟨x1, e1⟩, ⟨x2, e2⟩, ⟨x3, e3⟩⟩,
          Or.inr ⟨⟨_, rfl⟩, ⟨_, rfl⟩, ⟨_, rfl⟩⟩⟩
  | of_beta hr heq ih =>
    rename_i t f t1
    cases hbe : t.beta with
    | some g =>
      rw [Triangle.betaM_of_some hbe, Option.some.injEq, Prod.mk.injEq] at heq
      obtain ⟨-, rfl⟩ := heq
      exact ih
    | none =>
      rcases ih.1 with ⟨l1, l2, l3⟩ | ⟨⟨x1, e1⟩, ⟨x2, e2⟩, ⟨x3, e3⟩⟩
      · rw [Triangle.betaM_of_none hbe (Triangle.init_angles_of_none l1) rfl,
          Option.some.injEq, Prod.mk.injEq] at heq
        obtain ⟨-, rfl⟩ := heq
        exact ⟨Or.inr ⟨⟨_, rfl⟩, ⟨_, rfl⟩, ⟨_, rfl⟩⟩, Or.inr ⟨⟨_, rfl⟩, ⟨_, rfl⟩, ⟨_, rfl⟩⟩⟩
      · rw [Triangle.betaM_of_none hbe (Triangle.init_angles_of_some e1 e2 e3) rfl,
          Option.some.injEq, Prod.mk.injEq] at heq
        obtain ⟨-, rfl⟩ := heq
        exact ⟨Or.inr ⟨⟨x1, e1⟩, ⟨x2, e2⟩, ⟨x3, e3⟩⟩,
          Or.inr ⟨⟨_, rfl⟩, ⟨_, rfl⟩, ⟨_, rfl⟩⟩⟩
  | of_gamma hr heq ih =>
    rename_i t f t1
    cases hga : t.gamma with
    | some g =>
      rw [Triangle.gammaM_of_some hga, Option.some.injEq, Prod.mk.injEq] at heq
      obtain ⟨-, rfl⟩ := heq
      exact ih
    | none =>
      rcases ih.1 with ⟨l1, l2, l3⟩ | ⟨⟨x1, e1⟩, ⟨x2, e2⟩, ⟨x3, e3⟩⟩
      · rw [Triangle.gammaM_of_none hga (Triangle.init_angles_of_none l1) rfl,
          Option.some.injEq, Prod.mk.injEq] at heq
        obtain ⟨-, rfl⟩ := heq
        exact ⟨Or.inr ⟨⟨_, rfl⟩, ⟨_, rfl⟩, ⟨_, rfl⟩⟩, Or.inr ⟨⟨_, rfl⟩, ⟨_, rfl⟩, ⟨_, rfl⟩⟩⟩
      · rw [Triangle.gammaM_of_none hga (Triangle.init_angles_of_some e1 e2 e3) rfl,
          Option.some.injEq, Prod.mk.injEq] at heq
        obtain ⟨-, rfl⟩ := heq
        exact ⟨Or.inr ⟨⟨x1, e1⟩, ⟨x2, e2⟩, ⟨x3, e3⟩⟩,
          Or.inr ⟨⟨_, rfl⟩, ⟨_, rfl⟩, ⟨_, rfl⟩⟩⟩

/-- Accessors of a reachable `Vector` evolve the state monotonically: nothing
already computed changes. -/
lemma Vector.reachable_preserves {v : Vector} (h : v.Reachable) :
    v.Preserves v.lengthM.2 ∧
    (∀ f v1, v.alphaM = some (f, v1) → v.Preserves v1) ∧
    (∀ f v1, v.betaM = some (f, v1) → v.Preserves v1) := by
  have hg := h.angle_group
  refine ⟨?_, ?_, ?_⟩
  · cases hl : v.length with
    | some g =>
      rw [Vector.lengthM_of_some hl]
      exact ⟨rfl, rfl, fun x hx => hx, fun x hx => hx, fun x hx => hx⟩
    | none =>
      rw [Vector.lengthM_of_none hl]
      refine ⟨rfl, rfl, ?_, fun x hx => hx, fun x hx => hx⟩
      intro x hx
      rw [hl] at hx
      cases hx
  · intro f v1 heq
    cases ha : v.alpha with
    | some g =>
      rw [Vector.alphaM_cached ha, Option.some.injEq, Prod.mk.injEq] at heq
      obtain ⟨-, rfl⟩ := heq
      exact ⟨rfl, rfl, fun x hx => hx, fun x hx => hx, fun x hx => hx⟩
    | none =>
      have hb : v.beta = none := hg.1 ha
      rw [Vector.alphaM_sets_both ha, Option.some.injEq, Prod.mk.injEq] at heq
      obtain ⟨-, rfl⟩ := heq
      refine ⟨rfl, rfl, fun x hx => hx, ?_, ?_⟩
      · intro x hx
        rw [ha] at hx
        cases hx
      · intro x hx
        rw [hb] at hx
        cases hx
  · intro f v1 heq
    cases hb : v.beta with
    | some g =>
      rw [Vector.betaM_cached hb, Option.some.injEq, Prod.mk.injEq] at heq
      obtain ⟨-, rfl⟩ := heq
      exact ⟨rfl, rfl, fun x hx => hx, fun x hx => hx, fun x hx => hx⟩
    | none =>
      have ha : v.alpha = none := hg.2 hb
      rw [Vector.betaM_sets_both hb, Option.some.injEq, Prod.mk.injEq] at heq
      obtain ⟨-, rfl⟩ := heq
      refine ⟨rfl, rfl, fun x hx => hx, ?_, ?_⟩
      · intro x hx
        rw [ha] at hx
        cases hx
      · intro x hx
        rw [hb] at hx
        cases hx

/-- A state preserves itself. -/
lemma Triangle.preserves_refl (t : Triangle) : t.Preserves t :=
  ⟨rfl, rfl, rfl, fun _ hx => hx, fun _ hx => hx, fun _ hx => hx,
    fun _ hx => hx, fun _ hx => hx, fun _ hx => hx⟩

/-- `init_lengths` on an all-unset lengths group evolves monotonically. -/
lemma Triangle.preserves_init_lengths {t : Triangle} (h1 : t.ab = none)
    (h2 : t.bc = none) (h3 : t.ca = none) : t.Preserves t.init_lengths := by
  refine ⟨rfl, rfl, rfl, ?_, ?_, ?_, fun x hx => hx, fun x hx => hx, fun x hx => hx⟩
  all_goals intro x hx
  · rw [h1] at hx; cases hx
  · rw [h2] at hx; cases hx
  · rw [h3] at hx; cases hx

/-- `init_angles` on a reachable state with the angles group unset: it
succeeds, evolves monotonically, and leaves all six derived fields set. -/
lemma Triangle.init_angles_forces {t : Triangle} (hlen : t.LenUniform)
    (h1 : t.alpha = none) (h2 : t.beta = none) (h3 : t.gamma = none) :
    ∃ t1, t.init_angles = some t1 ∧ t.Preserves t1 ∧
      (∃ x, t1.ab = some x) ∧ (∃ x, t1.bc = some x) ∧ (∃ x, t1.ca = some x) ∧
      (∃ x, t1.alpha = some x) ∧ (∃ x, t1.beta = some x) ∧ (∃ x, t1.gamma = some x) := by
  rcases hlen with ⟨l1, l2, l3⟩ | ⟨⟨x1, e1⟩, ⟨x2, e2⟩, ⟨x3, e3⟩⟩
  · refine ⟨_, Triangle.init_angles_of_none l1, ?_, ⟨_, rfl⟩, ⟨_, rfl⟩, ⟨_, rfl⟩,
      ⟨_, rfl⟩, ⟨_, rfl⟩, ⟨_, rfl⟩⟩
    refine ⟨rfl, rfl, rfl, ?_, ?_, ?_, ?_, ?_, ?_⟩
    all_goals intro x hx
    · rw [l1] at hx; cases hx
    · rw [l2] at hx; cases hx
    · rw [l3] at hx; cases hx
    · rw [h1] at hx; cases hx
    · rw [h2] at hx; cases hx
    · rw [h3] at hx; cases hx
  · refine ⟨_, Triangle.init_angles_of_some e1 e2 e3, ?_, ⟨x1, e1⟩, ⟨x2, e2⟩, ⟨x3, e3⟩,
      ⟨_, rfl⟩, ⟨_, rfl⟩, ⟨_, rfl⟩⟩
    refine ⟨rfl, rfl, rfl, fun x hx => hx, fun x hx => hx, fun x hx => hx, ?_, ?_, ?_⟩
    all_goals intro x hx
    · rw [h1] at hx; cases hx
    · rw [h2] at hx; cases hx
    · rw [h3] at hx; cases hx

/-- Accessors of a reachable `Triangle` evolve the state monotonically, a
length accessor leaves the lengths group fully set, and an angle accessor of
an unset angles group leaves all six derived fields set (it forces the
lengths group first). -/
lemma Triangle.preserves_of_reachable {t : Triangle} (h : t.Reachable) :
    (∀ f t1, t.abM = some (f, t1) ∨ t.bcM = some (f, t1) ∨ t.caM = some (f, t1) →
      t.Preserves t1 ∧ (∃ x, t1.ab = some x) ∧ (∃ x, t1.bc = some x) ∧
        (∃ x, t1.ca = some x)) ∧
    (∀ f t1, t.alphaM = some (f, t1) ∨ t.betaM = some (f, t1) ∨ t.gammaM = some (f, t1) →
      t.Preserves t1) ∧
    (∀ f t1, t.alpha = none ∧ t.alphaM = some (f, t1) ∨
        t.beta = none ∧ t.betaM = some (f, t1) ∨
        t.gamma = none ∧ t.gammaM = some (f, t1) →
      (∃ x, t1.ab = some x) ∧ (∃ x, t1.bc = some x) ∧ (∃ x, t1.ca = some x) ∧
      (∃ x, t1.alpha = some x) ∧ (∃ x, t1.beta = some x) ∧ (∃ x, t1.gamma = some x)) := by
  obtain ⟨hlen, hang⟩ := h.uniform
  have hangset : t.alpha = none ∨ t.beta = none ∨ t.gamma = none →
      t.alpha = none ∧ t.beta = none ∧ t.gamma = none := by
    intro hcase
    rcases hang with hnone | ⟨⟨y1, g1⟩, ⟨y2, g2⟩, ⟨y3, g3⟩⟩
    · exact hnone
    · rcases hcase with hc | hc | hc
      · rw [hc] at g1; cases g1
      · rw [hc] at g2; cases g2
      · rw [hc] at g3; cases g3
  have hlenset : ∀ t1 : Triangle, t1 = t.init_lengths →
      (∃ x, t1.ab = some x) ∧ (∃ x, t1.bc = some x) ∧ (∃ x, t1.ca = some x) :=
    fun t1 ht1 => by
      rw [ht1]
      exact ⟨⟨_, rfl⟩, ⟨_, rfl⟩, ⟨_, rfl⟩⟩
  refine ⟨?_, ?_, ?_⟩
  · rintro f t1 (heq | heq | heq)
    · cases hf : t.ab with
      | some g =>
        rw [Triangle.abM_of_some hf, Option.some.injEq, Prod.mk.injEq] at heq
        obtain ⟨-, rfl⟩ := heq
        rcases hlen with ⟨l1, -⟩ | hset
        · rw [l1] at hf; cases hf
        · exact ⟨Triangle.preserves_refl t, hset⟩
      | none =>
        rcases hlen with ⟨l1, l2, l3⟩ | ⟨⟨y1, g1⟩, -⟩
        · rw [Triangle.abM_of_none hf, Option.some.injEq, Prod.mk.injEq] at heq
          obtain ⟨-, rfl⟩ := heq
          exact ⟨Triangle.preserves_init_lengths l1 l2 l3, hlenset _ rfl⟩
        · rw [hf] at g1; cases g1
    · cases hf : t.bc with
      | some g =>
        rw [Triangle.bcM_of_some hf, Option.some.injEq, Prod.mk.injEq] at heq
        obtain ⟨-, rfl⟩ := heq
        rcases hlen with ⟨-, l2, -⟩ | hset
        · rw [l2] at hf; cases hf
        · exact ⟨Triangle.preserves_refl t, hset⟩
      | none =>
        rcases hlen with ⟨l1, l2, l3⟩ | ⟨-, ⟨y2, g2⟩, -⟩
        · rw [Triangle.bcM_of_none hf, Option.some.injEq, Prod.mk.injEq] at heq
          obtain ⟨-, rfl⟩ := heq
          exact ⟨Triangle.preserves_init_lengths l1 l2 l3, hlenset _ rfl⟩
        · rw [hf] at g2; cases g2
    · cases hf : t.ca with
      | some g =>
        rw [Triangle.caM_of_some hf, Option.some.injEq, Prod.mk.injEq] at heq
        obtain ⟨-, rfl⟩ := heq
        rcases hlen with ⟨-, -, l3⟩ | hset
        · rw [l3] at hf; cases hf
        · exact ⟨Triangle.preserves_refl t, hset⟩
      | none =>
        rcases hlen with ⟨l1, l2, l3⟩ | ⟨-, -, ⟨y3, g3⟩⟩
        · rw [Triangle.caM_of_none hf, Option.some.injEq, Prod.mk.injEq] at heq
          obtain ⟨-, rfl⟩ := heq
          exact ⟨Triangle.preserves_init_lengths l1 l2 l3, hlenset _ rfl⟩
        · rw [hf] at g3; cases g3
  · rintro f t1 (heq | heq | heq)
    · cases hf : t.alpha with
      | some g =>
        rw [Triangle.alphaM_of_some hf, Option.some.injEq, Prod.mk.injEq] at heq
        obtain ⟨-, rfl⟩ := heq
        exact Triangle.preserves_refl t
      | none =>
        obtain ⟨h1, h2, h3⟩ := hangset (Or.inl hf)
        obtain ⟨u, hu, hp, -, -, -, ⟨x, hx⟩, -, -⟩ :=
          Triangle.init_angles_forces hlen h1 h2 h3
        rw [Triangle.alphaM_of_none hf hu hx, Option.some.injEq, Prod.mk.injEq] at heq
        obtain ⟨-, rfl⟩ := heq
        exact hp
    · cases hf : t.beta with
      | some g =>
        rw [Triangle.betaM_of_some hf, Option.some.injEq, Prod.mk.injEq] at heq
        obtain ⟨-, rfl⟩ := heq
        exact Triangle.preserves_refl t
      | none =>
        obtain ⟨h1, h2, h3⟩ := hangset (Or.inr (Or.inl hf))
        obtain ⟨u, hu, hp, -, -, -, -, ⟨x, hx⟩, -⟩ :=
          Triangle.init_angles_forces hlen h1 h2 h3
        rw [Triangle.betaM_of_none hf hu hx, Option.some.injEq, Prod.mk.injEq] at heq
        obtain ⟨-, rfl⟩ := heq
        exact hp
    · cases hf : t.gamma with
      | some g =>
        rw [Triangle.gammaM_of_some hf, Option.some.injEq, Prod.mk.injEq] at heq
        obtain ⟨-, rfl⟩ := heq
        exact Triangle.preserves_refl t
      | none =>
        obtain ⟨h1, h2, h3⟩ := hangset (Or.inr (Or.inr hf))
        obtain ⟨u, hu, hp, -, -, -, -, -, ⟨x, hx⟩⟩ :=
          Triangle.init_angles_forces hlen h1 h2 h3
        rw [Triangle.gammaM_of_none hf hu hx, Option.some.injEq, Prod.mk.injEq] at heq
        obtain ⟨-, rfl⟩ := heq
        exact hp
  · rintro f t1 (⟨hf, heq⟩ | ⟨hf, heq⟩ | ⟨hf, heq⟩)
    · obtain ⟨h1, h2, h3⟩ := hangset (Or.inl hf)
      obtain ⟨u, hu, hp, s1, s2, s3, ⟨x, hx⟩, s5, s6⟩ :=
        Triangle.init_angles_forces hlen h1 h2 h3
      rw [Triangle.alphaM_of_none hf hu hx, Option.some.injEq, Prod.mk.injEq] at heq
      obtain ⟨-, rfl⟩ := heq
      exact ⟨s1, s2, s3, ⟨x, hx⟩, s5, s6⟩
    · obtain ⟨h1, h2, h3⟩ := hangset (Or.inr (Or.inl hf))
      obtain ⟨u, hu, hp, s1, s2, s3, s4, ⟨x, hx⟩, s6⟩ :=
        Triangle.init_angles_forces hlen h1 h2 h3
      rw [Triangle.betaM_of_none hf hu hx, Option.some.injEq, Prod.mk.injEq] at heq
      obtain ⟨-, rfl⟩ := heq
      exact ⟨s1, s2, s3, s4, ⟨x, hx⟩, s6⟩
    · obtain ⟨h1, h2, h3⟩ := hangset (Or.inr (Or.inr hf))
      obtain ⟨u, hu, hp, s1, s2, s3, s4, s5, ⟨x, hx⟩⟩ :=
        Triangle.init_angles_forces hlen h1 h2 h3
      rw [Triangle.gammaM_of_none hf hu hx, Option.some.injEq, Prod.mk.injEq] at heq
      obtain ⟨-, rfl⟩ := heq
      exact ⟨s1, s2, s3, s4, s5, ⟨x, hx⟩⟩

/-- C4. Memoization invariant: each derived field makes at most one
Unset-to-Computed transition.  A repeated accessor call on a computed field
returns the identical cached value and leaves the state (hence every other
field) unchanged; on every reachable state, accessors evolve the state
monotonically (endpoints never change and every computed field keeps its
exact value); a reachable `Vector`'s two angle fields are set together, and a
reachable `Triangle`'s lengths group and angles group are each all unset or
all computed, because any accessor of an unset group computes the entire
group, an angle accessor forcing the lengths group first (all six fields are
set afterwards). -/
theorem memoization_single_transition_invariant :
    (∀ (v : Vector) (f : F32), v.length = some f → v.lengthM = (f, v)) ∧
    (∀ (v : Vector) (f : F32), v.alpha = some f → v.alphaM = some (f, v)) ∧
    (∀ (v : Vector) (f : F32), v.beta = some f → v.betaM = some (f, v)) ∧
    (∀ (t : Triangle) (f : F32), t.ab = some f → t.abM = some (f, t)) ∧
    (∀ (t : Triangle) (f : F32), t.bc = some f → t.bcM = some (f, t)) ∧
    (∀ (t : Triangle) (f : F32), t.ca = some f → t.caM = some (f, t)) ∧
    (∀ (t : Triangle) (f : F32), t.alpha = some f → t.alphaM = some (f, t)) ∧
    (∀ (t : Triangle) (f : F32), t.beta = some f → t.betaM = some (f, t)) ∧
    (∀ (t : Triangle) (f : F32), t.gamma = some f → t.gammaM = some (f, t)) ∧
    (∀ v : Vector, v.Reachable → (v.alpha = none ↔ v.beta = none)) ∧
    (∀ t : Triangle, t.Reachable → t.LenUniform ∧ t.AngUniform) ∧
    (∀ v : Vector, v.Reachable →
      v.Preserves v.lengthM.2 ∧
      (∀ f v1, v.alphaM = some (f, v1) → v.Preserves v1) ∧
      (∀ f v1, v.betaM = some (f, v1) → v.Preserves v1)) ∧
    (∀ t : Triangle, t.Reachable →
      (∀ f t1, t.abM = some (f, t1) ∨ t.bcM = some (f, t1) ∨ t.caM = some (f, t1) →
        t.Preserves t1 ∧ (∃ x, t1.ab = some x) ∧ (∃ x, t1.bc = some x) ∧
          (∃ x, t1.ca = some x)) ∧
      (∀ f t1, t.alphaM = some (f, t1) ∨ t.betaM = some (f, t1) ∨
          t.gammaM = some (f, t1) → t.Preserves t1) ∧
      (∀ f t1, t.alpha = none ∧ t.alphaM = some (f, t1) ∨
          t.beta = none ∧ t.betaM = some (f, t1) ∨
          t.gamma = none ∧ t.gammaM = some (f, t1) →
        (∃ x, t1.ab = some x) ∧ (∃ x, t1.bc = some x) ∧ (∃ x, t1.ca = some x) ∧
        (∃ x, t1.alpha = some x) ∧ (∃ x, t1.beta = some x) ∧ (∃ x, t1.gamma = some x))) :=
  ⟨fun _ _ h => Vector.lengthM_of_some h,
    fun _ _ h => Vector.alphaM_cached h,
    fun _ _ h => Vector.betaM_cached h,
    fun _ _ h => Triangle.abM_of_some h,
    fun _ _ h => Triangle.bcM_of_some h,
    fun _ _ h => Triangle.caM_of_some h,
    fun _ _ h => Triangle.alphaM_of_some h,
    fun _ _ h => Triangle.betaM_of_some h,
    fun _ _ h => Triangle.gammaM_of_some h,
    fun _ h => h.angle_group,
    fun _ h => h.uniform,
    fun _ h => Vector.reachable_preserves h,
    fun _ h => Triangle.preserves_of_reachable h⟩

/-- Rounding helper: when `x * 10 + 1/2` lies in `[n, n+1)`, rounding `x`
half-away-from-zero at one decimal gives `n / 10`. -/
lemma half_away_eq_of_bounds {x : ℝ} {n : ℤ} (h0 : 0 ≤ x)
    (h1 : (n : ℝ) ≤ x * 10 + 1 / 2) (h2 : x * 10 + 1 / 2 < n + 1) :
    half_away_from_zero x 1 = n / 10 := by
  unfold half_away_from_zero
  rw [if_pos h0]
  have hfl : ⌊x * (10 : ℝ) ^ (1 : ℕ) + 1 / 2⌋ = n := by
    rw [pow_one]
    exact Int.floor_eq_iff.2 ⟨h1, by exact_mod_cast h2⟩
  rw [hfl, pow_one]

/-- C2. When `alpha` or `beta` is unset, both are computed together:
`beta = atan(opposite^2 / adjacent^2) * 180/π` and `alpha = 90 - beta`, with
the same endpoint differences as `length`; when `adjacent` is (either) zero
and `opposite` is nonzero in the IEEE sense (any non-NaN value with
`opposite != 0`, finite or infinite), the division yields `+inf` and
`atan(inf)` makes `beta` exactly `90`; and for `point_a = (1,3)`,
`point_b = (3,1)`, `alpha()` rounds half-away-from-zero at one decimal to
`45.0` (it is exactly `45`). -/
theorem angles_computed_together :
    (∀ v : Vector, v.alpha = none →
      v.alphaM = some ((F32.fin 90).sub
          ((((v.opposite.pow2).div (v.adjacent.pow2)).atan.mul (F32.fin 180)).div F32.pi),
        { v with
          alpha := some ((F32.fin 90).sub
            ((((v.opposite.pow2).div (v.adjacent.pow2)).atan.mul (F32.fin 180)).div F32.pi))
          beta := some
            ((((v.opposite.pow2).div (v.adjacent.pow2)).atan.mul (F32.fin 180)).div F32.pi) })) ∧
    (∀ v : Vector, v.beta = none →
      v.betaM = some (
        (((v.opposite.pow2).div (v.adjacent.pow2)).atan.mul (F32.fin 180)).div F32.pi,
        { v with
          alpha := some ((F32.fin 90).sub
            ((((v.opposite.pow2).div (v.adjacent.pow2)).atan.mul (F32.fin 180)).div F32.pi))
          beta := some
            ((((v.opposite.pow2).div (v.adjacent.pow2)).atan.mul (F32.fin 180)).div F32.pi) })) ∧
    (∀ v : Vector, (v.adjacent = F32.fin 0 ∨ v.adjacent = F32.negZero) →
      ¬ F32.beq v.opposite (F32.fin 0) → v.opposite ≠ F32.nan →
      (v.set_alpha_beta).beta = some (F32.fin 90)) ∧
    (∃ av : ℝ,
      (Vector.new ⟨F32.fin 1, F32.fin 3⟩ ⟨F32.fin 3, F32.fin 1⟩).alphaM.map Prod.fst
        = some (F32.fin av) ∧ half_away_from_zero av 1 = 45) := by
  refine ⟨fun v h => Vector.alphaM_sets_both h, fun v h => Vector.betaM_sets_both h,
    ?_, 45, ?_, ?_⟩
  · intro v hadj hbeq hnan
    have halfpi : ((F32.fin (Real.pi / 2)).mul (F32.fin 180)).div F32.pi = F32.fin 90 := by
      rw [F32.mul_fin_fin (by positivity) (by norm_num), F32.pi,
        F32.div_fin_fin Real.pi_pos]
      have : Real.pi / 2 * 180 / Real.pi = 90 := by
        field_simp
        ring
      rw [this]
    have key : (((v.opposite.pow2).div (v.adjacent.pow2)).atan.mul (F32.fin 180)).div
        F32.pi = F32.fin 90 := by
      rw [F32.pow2_zero hadj]
      cases ho : v.opposite with
      | fin o =>
        have hne : o ≠ 0 := by
          intro h
          apply hbeq
          rw [ho]
          exact h
        rw [F32.pow2_fin]
        have h1 : F32.div (F32.fin (o ^ 2)) (F32.fin 0) = F32.inf := by
          have hpos : 0 < o ^ 2 := lt_of_le_of_ne (sq_nonneg o) (Ne.symm (pow_ne_zero 2 hne))
          simp [F32.div, pow_ne_zero 2 hne, hpos]
        rw [h1]
        rw [show F32.inf.atan = F32.fin (Real.pi / 2) from rfl]
        exact halfpi
      | negZero =>
        refine absurd ?_ hbeq
        rw [ho]
        exact rfl
      | inf =>
        rw [show F32.inf.pow2 = F32.inf from rfl]
        have h1 : F32.div F32.inf (F32.fin 0) = F32.inf := by
          simp [F32.div]
        rw [h1, show F32.inf.atan = F32.fin (Real.pi / 2) from rfl]
        exact halfpi
      | ninf =>
        rw [show F32.ninf.pow2 = F32.inf from rfl]
        have h1 : F32.div F32.inf (F32.fin 0) = F32.inf := by
          simp [F32.div]
        rw [h1, show F32.inf.atan = F32.fin (Real.pi / 2) from rfl]
        exact halfpi
      | nan => exact absurd ho hnan
    show some _ = _
    rw [key]
  · simp only [Vector.new, Vector.alphaM, Vector.set_alpha_beta, Vector.opposite,
      Vector.adjacent, F32.sub_fin_fin, F32.pow2_fin]
    norm_num
    rw [F32.div_fin_fin (by norm_num), F32.pi]
    norm_num [Real.arctan_one]
    rw [F32.mul_fin_fin (by positivity) (by norm_num),
      F32.div_fin_fin Real.pi_pos, F32.sub_fin_fin]
    have : 90 - Real.pi / 4 * 180 / Real.pi = 45 := by
      field_simp
      ring
    rw [this]
  · have h45 := @half_away_eq_of_bounds 45 450 (by norm_num) (by norm_num) (by norm_num)
    rw [h45]
    norm_num

section TaylorBounds

/-!  Alternating-series bounds for `cos` and `sin` on `[0, ∞)`, obtained by
repeatedly integrating `sin t ≤ t` (`Real.sin_le`) and
`1 - t^2/2 ≤ cos t` (`Real.one_sub_sq_div_two_le_cos`).  They let the
concrete triangle angles be bracketed tightly enough to check their rounded
decimal values. -/

lemma sin_ge_cubic {x : ℝ} (hx : 0 ≤ x) : x - x ^ 3 / 6 ≤ Real.sin x := by
  have hint : (∫ t in (0:ℝ)..x, (1 - t ^ 2 / 2)) ≤ ∫ t in (0:ℝ)..x, Real.cos t := by
    refine intervalIntegral.integral_mono_on hx
      ((continuous_const.sub ((continuous_pow 2).div_const 2)).intervalIntegrable _ _)
      (Real.continuous_cos.intervalIntegrable _ _) ?_
    intro t _
    exact Real.one_sub_sq_div_two_le_cos
  rw [integral_cos, Real.sin_zero, sub_zero,
    intervalIntegral.integral_sub (intervalIntegrable_const)
      (((continuous_pow 2).div_const 2).intervalIntegrable _ _),
    integral_one, intervalIntegral.integral_div, integral_pow] at hint
  norm_num at hint
  linarith

lemma cos_le_quartic {x : ℝ} (hx : 0 ≤ x) :
    Real.cos x ≤ 1 - x ^ 2 / 2 + x ^ 4 / 24 := by
  have hint : (∫ t in (0:ℝ)..x, (t - t ^ 3 / 6)) ≤ ∫ t in (0:ℝ)..x, Real.sin t := by
    refine intervalIntegral.integral_mono_on hx
      ((continuous_id'.sub ((continuous_pow 3).div_const 6)).intervalIntegrable _ _)
      (Real.continuous_sin.intervalIntegrable _ _) ?_
    intro t ht
    exact sin_ge_cubic ht.1
  rw [integral_sin, Real.cos_zero,
    intervalIntegral.integral_sub (intervalIntegral.intervalIntegrable_id)
      (((continuous_pow 3).div_const 6).intervalIntegrable _ _),
    integral_id, intervalIntegral.integral_div, integral_pow] at hint
  norm_num at hint
  linarith

lemma sin_le_quintic {x : ℝ} (hx : 0 ≤ x) :
    Real.sin x ≤ x - x ^ 3 / 6 + x ^ 5 / 120 := by
  have hint : (∫ t in (0:ℝ)..x, Real.cos t)
      ≤ ∫ t in (0:ℝ)..x, (1 - t ^ 2 / 2 + t ^ 4 / 24) := by
    refine intervalIntegral.integral_mono_on hx
      (Real.continuous_cos.intervalIntegrable _ _)
      (((continuous_const.sub ((continuous_pow 2).div_const 2)).add
        ((continuous_pow 4).div_const 24)).intervalIntegrable _ _) ?_
    intro t ht
    exact cos_le_quartic ht.1
  rw [integral_cos, Real.sin_zero, sub_zero,
    intervalIntegral.integral_add
      ((continuous_const.sub ((continuous_pow 2).div_const 2)).intervalIntegrable _ _)
      (((continuous_pow 4).div_const 24).intervalIntegrable _ _),
    intervalIntegral.integral_sub (intervalIntegrable_const)
      (((continuous_pow 2).div_const 2).intervalIntegrable _ _),
    integral_one, intervalIntegral.integral_div, integral_pow,
    intervalIntegral.integral_div, integral_pow] at hint
  norm_num at hint
  linarith

lemma cos_ge_sextic {x : ℝ} (hx : 0 ≤ x) :
    1 - x ^ 2 / 2 + x ^ 4 / 24 - x ^ 6 / 720 ≤ Real.cos x := by
  have hint : (∫ t in (0:ℝ)..x, Real.sin t)
      ≤ ∫ t in (0:ℝ)..x, (t - t ^ 3 / 6 + t ^ 5 / 120) := by
    refine intervalIntegral.integral_mono_on hx
      (Real.continuous_sin.intervalIntegrable _ _)
      (((continuous_id'.sub ((continuous_pow 3).div_const 6)).add
        ((continuous_pow 5).div_const 120)).intervalIntegrable _ _) ?_
    intro t ht
    exact sin_le_quintic ht.1
  rw [integral_sin, Real.cos_zero,
    intervalIntegral.integral_add
      ((continuous_id'.sub ((continuous_pow 3).div_const 6)).intervalIntegrable _ _)
      (((continuous_pow 5).div_const 120).intervalIntegrable _ _),
    intervalIntegral.integral_sub (intervalIntegral.intervalIntegrable_id)
      (((continuous_pow 3).div_const 6).intervalIntegrable _ _),
    integral_id, intervalIntegral.integral_div, integral_pow,
    intervalIntegral.integral_div, integral_pow] at hint
  norm_num at hint
  linarith

lemma sin_ge_septic {x : ℝ} (hx : 0 ≤ x) :
    x - x ^ 3 / 6 + x ^ 5 / 120 - x ^ 7 / 5040 ≤ Real.sin x := by
  have hint : (∫ t in (0:ℝ)..x, (1 - t ^ 2 / 2 + t ^ 4 / 24 - t ^ 6 / 720))
      ≤ ∫ t in (0:ℝ)..x, Real.cos t := by
    refine intervalIntegral.integral_mono_on hx
      ((((continuous_const.sub ((continuous_pow 2).div_const 2)).add
        ((continuous_pow 4).div_const 24)).sub
        ((continuous_pow 6).div_const 720)).intervalIntegrable _ _)
      (Real.continuous_cos.intervalIntegrable _ _) ?_
    intro t ht
    exact cos_ge_sextic ht.1
  rw [integral_cos, Real.sin_zero, sub_zero,
    intervalIntegral.integral_sub
      (((continuous_const.sub ((continuous_pow 2).div_const 2)).add
        ((continuous_pow 4).div_const 24)).intervalIntegrable _ _)
      (((continuous_pow 6).div_const 720).intervalIntegrable _ _),
    intervalIntegral.integral_add
      ((continuous_const.sub ((continuous_pow 2).div_const 2)).intervalIntegrable _ _)
      (((continuous_pow 4).div_const 24).intervalIntegrable _ _),
    intervalIntegral.integral_sub (intervalIntegrable_const)
      (((continuous_pow 2).div_const 2).intervalIntegrable _ _),
    integral_one, intervalIntegral.integral_div, integral_pow,
    intervalIntegral.integral_div, integral_pow,
    intervalIntegral.integral_div, integral_pow] at hint
  norm_num at hint
  linarith

lemma cos_le_octic {x : ℝ} (hx : 0 ≤ x) :
    Real.cos x ≤ 1 - x ^ 2 / 2 + x ^ 4 / 24 - x ^ 6 / 720 + x ^ 8 / 40320 := by
  have hint : (∫ t in (0:ℝ)..x, (t - t ^ 3 / 6 + t ^ 5 / 120 - t ^ 7 / 5040))
      ≤ ∫ t in (0:ℝ)..x, Real.sin t := by
    refine intervalIntegral.integral_mono_on hx
      ((((continuous_id'.sub ((continuous_pow 3).div_const 6)).add
        ((continuous_pow 5).div_const 120)).sub
        ((continuous_pow 7).div_const 5040)).intervalIntegrable _ _)
      (Real.continuous_sin.intervalIntegrable _ _) ?_
    intro t ht
    exact sin_ge_septic ht.1
  rw [integral_sin, Real.cos_zero,
    intervalIntegral.integral_sub
      (((continuous_id'.sub ((continuous_pow 3).div_const 6)).add
        ((continuous_pow 5).div_const 120)).intervalIntegrable _ _)
      (((continuous_pow 7).div_const 5040).intervalIntegrable _ _),
    intervalIntegral.integral_add
      ((continuous_id'.sub ((continuous_pow 3).div_const 6)).intervalIntegrable _ _)
      (((continuous_pow 5).div_const 120).intervalIntegrable _ _),
    intervalIntegral.integral_sub (intervalIntegral.intervalIntegrable_id)
      (((continuous_pow 3).div_const 6).intervalIntegrable _ _),
    integral_id, intervalIntegral.integral_div, integral_pow,
    intervalIntegral.integral_div, integral_pow,
    intervalIntegral.integral_div, integral_pow] at hint
  norm_num at hint
  linarith

lemma sin_le_nonic {x : ℝ} (hx : 0 ≤ x) :
    Real.sin x ≤ x - x ^ 3 / 6 + x ^ 5 / 120 - x ^ 7 / 5040 + x ^ 9 / 362880 := by
  have hint : (∫ t in (0:ℝ)..x, Real.cos t)
      ≤ ∫ t in (0:ℝ)..x, (1 - t ^ 2 / 2 + t ^ 4 / 24 - t ^ 6 / 720 + t ^ 8 / 40320) := by
    refine intervalIntegral.integral_mono_on hx
      (Real.continuous_cos.intervalIntegrable _ _)
      (((((continuous_const.sub ((continuous_pow 2).div_const 2)).add
        ((continuous_pow 4).div_const 24)).sub
        ((continuous_pow 6).div_const 720)).add
        ((continuous_pow 8).div_const 40320)).intervalIntegrable _ _) ?_
    intro t ht
    exact cos_le_octic ht.1
  rw [integral_cos, Real.sin_zero, sub_zero,
    intervalIntegral.integral_add
      ((((continuous_const.sub ((continuous_pow 2).div_const 2)).add
        ((continuous_pow 4).div_const 24)).sub
        ((continuous_pow 6).div_const 720)).intervalIntegrable _ _)
      (((continuous_pow 8).div_const 40320).intervalIntegrable _ _),
    intervalIntegral.integral_sub
      (((continuous_const.sub ((continuous_pow 2).div_const 2)).add
        ((continuous_pow 4).div_const 24)).intervalIntegrable _ _)
      (((continuous_pow 6).div_const 720).intervalIntegrable _ _),
    intervalIntegral.integral_add
      ((continuous_const.sub ((continuous_pow 2).div_const 2)).intervalIntegrable _ _)
      (((continuous_pow 4).div_const 24).intervalIntegrable _ _),
    intervalIntegral.integral_sub (intervalIntegrable_const)
      (((continuous_pow 2).div_const 2).intervalIntegrable _ _),
    integral_one, intervalIntegral.integral_div, integral_pow,
    intervalIntegral.integral_div, integral_pow,
    intervalIntegral.integral_div, integral_pow,
    intervalIntegral.integral_div, integral_pow] at hint
  norm_num at hint
  linarith

lemma cos_ge_decic {x : ℝ} (hx : 0 ≤ x) :
    1 - x ^ 2 / 2 + x ^ 4 / 24 - x ^ 6 / 720 + x ^ 8 / 40320 - x ^ 10 / 3628800
      ≤ Real.cos x := by
  have hint : (∫ t in (0:ℝ)..x, Real.sin t)
      ≤ ∫ t in (0:ℝ)..x,
          (t - t ^ 3 / 6 + t ^ 5 / 120 - t ^ 7 / 5040 + t ^ 9 / 362880) := by
    refine intervalIntegral.integral_mono_on hx
      (Real.continuous_sin.intervalIntegrable _ _)
      (((((continuous_id'.sub ((continuous_pow 3).div_const 6)).add
        ((continuous_pow 5).div_const 120)).sub
        ((continuous_pow 7).div_const 5040)).add
        ((continuous_pow 9).div_const 362880)).intervalIntegrable _ _) ?_
    intro t ht
    exact sin_le_nonic ht.1
  rw [integral_sin, Real.cos_zero,
    intervalIntegral.integral_add
      ((((continuous_id'.sub ((continuous_pow 3).div_const 6)).add
        ((continuous_pow 5).div_const 120)).sub
        ((continuous_pow 7).div_const 5040)).intervalIntegrable _ _)
      (((continuous_pow 9).div_const 362880).intervalIntegrable _ _),
    intervalIntegral.integral_sub
      (((continuous_id'.sub ((continuous_pow 3).div_const 6)).add
        ((continuous_pow 5).div_const 120)).intervalIntegrable _ _)
      (((continuous_pow 7).div_const 5040).intervalIntegrable _ _),
    intervalIntegral.integral_add
      ((continuous_id'.sub ((continuous_pow 3).div_const 6)).intervalIntegrable _ _)
      (((continuous_pow 5).div_const 120).intervalIntegrable _ _),
    intervalIntegral.integral_sub (intervalIntegral.intervalIntegrable_id)
      (((continuous_pow 3).div_const 6).intervalIntegrable _ _),
    integral_id, intervalIntegral.integral_div, integral_pow,
    intervalIntegral.integral_div, integral_pow,
    intervalIntegral.integral_div, integral_pow,
    intervalIntegral.integral_div, integral_pow] at hint
  norm_num at hint
  linarith

end TaylorBounds

/-- Bracketing `arccos c` in degrees: rational anchors `t1` (above the lower
boundary in radians) and `t2` (below the upper boundary in radians) together
with the polynomial bounds on `cos` pin `arccos c * 180 / π` into `[lo, hi)`. -/
lemma arccos_deg_bracket {c lo hi t1 t2 : ℝ}
    (hc1 : -1 ≤ c) (hc2 : c ≤ 1) (hlo : 0 ≤ lo) (hhi : hi ≤ 180) (hlohi : lo ≤ hi)
    (ht1 : lo * Real.pi / 180 ≤ t1) (ht1pi : t1 ≤ Real.pi)
    (ht2 : 0 ≤ t2) (ht2le : t2 ≤ hi * Real.pi / 180)
    (hP1 : c ≤ 1 - t1 ^ 2 / 2 + t1 ^ 4 / 24 - t1 ^ 6 / 720 + t1 ^ 8 / 40320
      - t1 ^ 10 / 3628800)
    (hP2 : 1 - t2 ^ 2 / 2 + t2 ^ 4 / 24 - t2 ^ 6 / 720 + t2 ^ 8 / 40320 < c) :
    lo ≤ Real.arccos c * 180 / Real.pi ∧ Real.arccos c * 180 / Real.pi < hi := by
  have hpi := Real.pi_pos
  have hθ0 : 0 ≤ Real.arccos c := Real.arccos_nonneg c
  have hθπ : Real.arccos c ≤ Real.pi := Real.arccos_le_pi c
  have hcosθ : Real.cos (Real.arccos c) = c := Real.cos_arccos hc1 hc2
  have ht10 : 0 ≤ t1 := le_trans (by positivity) ht1
  have hhipi : hi * Real.pi / 180 ≤ Real.pi := by nlinarith
  have hcoslo : c ≤ Real.cos (lo * Real.pi / 180) := by
    have hb1 : Real.cos t1 ≤ Real.cos (lo * Real.pi / 180) :=
      Real.cos_le_cos_of_nonneg_of_le_pi (by positivity) ht1pi ht1
    have hb2 := cos_ge_decic ht10
    linarith
  have hcoshi : Real.cos (hi * Real.pi / 180) < c := by
    have hb1 : Real.cos (hi * Real.pi / 180) ≤ Real.cos t2 :=
      Real.cos_le_cos_of_nonneg_of_le_pi ht2 hhipi ht2le
    have hb2 := cos_le_octic ht2
    linarith
  have hlo2 : lo * Real.pi / 180 ≤ Real.arccos c := by
    by_contra hcon
    push_neg at hcon
    have hlt : Real.cos (lo * Real.pi / 180) < Real.cos (Real.arccos c) :=
      Real.cos_lt_cos_of_nonneg_of_le_pi hθ0 (by nlinarith) hcon
    rw [hcosθ] at hlt
    linarith
  have hhi2 : Real.arccos c < hi * Real.pi / 180 := by
    by_contra hcon
    push_neg at hcon
    have hle : Real.cos (Real.arccos c) ≤ Real.cos (hi * Real.pi / 180) :=
      Real.cos_le_cos_of_nonneg_of_le_pi (by nlinarith) hθπ hcon
    rw [hcosθ] at hle
    linarith
  constructor
  · rw [le_div_iff₀ hpi]
    have h1 := (div_le_iff₀ (by norm_num : (0:ℝ) < 180)).1
      (by linarith [hlo2] : lo * Real.pi / 180 ≤ Real.arccos c)
    nlinarith
  · rw [div_lt_iff₀ hpi]
    have h1 := (lt_div_iff₀ (by norm_num : (0:ℝ) < 180)).1
      (by linarith [hhi2] : Real.arccos c < hi * Real.pi / 180)
    nlinarith

/-- `get_angle` on three positive finite lengths whose law-of-cosines
quotient is in `[-1, 1]` evaluates to the expected real arccos value. -/
lemma Triangle.get_angle_fin {x y z : ℝ} (hx : 0 < x) (hy : 0 < y)
    (h1 : -1 ≤ (x ^ 2 + y ^ 2 - z ^ 2) / (2 * x * y))
    (h2 : (x ^ 2 + y ^ 2 - z ^ 2) / (2 * x * y) ≤ 1) :
    Triangle.get_angle (F32.fin x) (F32.fin y) (F32.fin z)
      = F32.fin (Real.arccos ((x ^ 2 + y ^ 2 - z ^ 2) / (2 * x * y)) * 180 / Real.pi) := by
  unfold Triangle.get_angle
  rw [F32.pow2_fin, F32.pow2_fin, F32.pow2_fin, F32.add_fin_fin, F32.sub_fin_fin,
    F32.mul_fin_fin (by norm_num) hx.le, F32.mul_fin_fin (by positivity) hy.le,
    F32.div_fin_fin (by positivity), F32.acos_fin h1 h2,
    F32.mul_fin_fin (Real.arccos_nonneg _) (by norm_num), F32.pi,
    F32.div_fin_fin Real.pi_pos]

/-- The fresh-vector distance between two finite points. -/
lemma Vector.lengthM_fin (x1 y1 x2 y2 : ℝ) :
    (Vector.new ⟨F32.fin x1, F32.fin y1⟩ ⟨F32.fin x2, F32.fin y2⟩).lengthM.1
      = F32.fin (Real.sqrt ((x1 - x2) ^ 2 + (y1 - y2) ^ 2)) := by
  simp only [Vector.new, Vector.lengthM, Vector.opposite, Vector.adjacent,
    F32.sub_fin_fin, F32.pow2_fin, F32.add_fin_fin]
  rw [F32.sqrt_fin (by positivity)]

/-- Bracketing the first test angle: `arccos(84 / (2·√2788))` in degrees lies
in `[37.25, 37.35)`. -/
lemma alpha_deg_bracket :
    37.25 ≤ Real.arccos (84 / (2 * Real.sqrt 2788)) * 180 / Real.pi ∧
    Real.arccos (84 / (2 * Real.sqrt 2788)) * 180 / Real.pi < 37.35 := by
  have hs1 : (52.8015:ℝ) ≤ Real.sqrt 2788 := by
    rw [show (52.8015:ℝ) = Real.sqrt (52.8015 ^ 2) from (Real.sqrt_sq (by norm_num)).symm]
    exact Real.sqrt_le_sqrt (by norm_num)
  have hs2 : Real.sqrt 2788 ≤ 52.8016 := by
    rw [show (52.8016:ℝ) = Real.sqrt (52.8016 ^ 2) from (Real.sqrt_sq (by norm_num)).symm]
    exact Real.sqrt_le_sqrt (by norm_num)
  have hc_ub : 84 / (2 * Real.sqrt 2788) ≤ 0.795432 := by
    rw [div_le_iff₀ (by positivity)]
    nlinarith
  have hc_lb : (0.7954304:ℝ) ≤ 84 / (2 * Real.sqrt 2788) := by
    rw [le_div_iff₀ (by positivity)]
    nlinarith
  refine @arccos_deg_bracket (84 / (2 * Real.sqrt 2788)) 37.25 37.35
    0.6501353 0.6518803
    (by linarith) (by linarith) (by norm_num) (by norm_num) (by norm_num)
    ?_ ?_ (by norm_num) ?_ ?_ ?_
  · nlinarith [Real.pi_lt_d6]
  · nlinarith [Real.pi_gt_three]
  · nlinarith [Real.pi_gt_d6]
  · have : (0.795432:ℝ) ≤ 1 - 0.6501353 ^ 2 / 2 + 0.6501353 ^ 4 / 24
        - 0.6501353 ^ 6 / 720 + 0.6501353 ^ 8 / 40320 - 0.6501353 ^ 10 / 3628800 := by
      norm_num
    linarith
  · have : (1:ℝ) - 0.6518803 ^ 2 / 2 + 0.6518803 ^ 4 / 24 - 0.6518803 ^ 6 / 720
        + 0.6518803 ^ 8 / 40320 < 0.7954304 := by
      norm_num
    linarith

/-- Bracketing the second test angle: `arccos(52 / (2·√1700))` in degrees
lies in `[50.85, 50.95)`. -/
lemma beta_deg_bracket :
    50.85 ≤ Real.arccos (52 / (2 * Real.sqrt 1700)) * 180 / Real.pi ∧
    Real.arccos (52 / (2 * Real.sqrt 1700)) * 180 / Real.pi < 50.95 := by
  have hs1 : (41.2310:ℝ) ≤ Real.sqrt 1700 := by
    rw [show (41.2310:ℝ) = Real.sqrt (41.2310 ^ 2) from (Real.sqrt_sq (by norm_num)).symm]
    exact Real.sqrt_le_sqrt (by norm_num)
  have hs2 : Real.sqrt 1700 ≤ 41.2311 := by
    rw [show (41.2311:ℝ) = Real.sqrt (41.2311 ^ 2) from (Real.sqrt_sq (by norm_num)).symm]
    exact Real.sqrt_le_sqrt (by norm_num)
  have hc_ub : 52 / (2 * Real.sqrt 1700) ≤ 0.6305935 := by
    rw [div_le_iff₀ (by positivity)]
    nlinarith
  have hc_lb : (0.6305919:ℝ) ≤ 52 / (2 * Real.sqrt 1700) := by
    rw [le_div_iff₀ (by positivity)]
    nlinarith
  refine @arccos_deg_bracket (52 / (2 * Real.sqrt 1700)) 50.85 50.95
    0.8875001 0.8892450
    (by linarith) (by linarith) (by norm_num) (by norm_num) (by norm_num)
    ?_ ?_ (by norm_num) ?_ ?_ ?_
  · nlinarith [Real.pi_lt_d6]
  · nlinarith [Real.pi_gt_three]
  · nlinarith [Real.pi_gt_d6]
  · have : (0.6305935:ℝ) ≤ 1 - 0.8875001 ^ 2 / 2 + 0.8875001 ^ 4 / 24
        - 0.8875001 ^ 6 / 720 + 0.8875001 ^ 8 / 40320 - 0.8875001 ^ 10 / 3628800 := by
      norm_num
    linarith
  · have : (1:ℝ) - 0.8892450 ^ 2 / 2 + 0.8892450 ^ 4 / 24 - 0.8892450 ^ 6 / 720
        + 0.8892450 ^ 8 / 40320 < 0.6305919 := by
      norm_num
    linarith

/-- Bracketing the third test angle: `arccos(-2 / (2·√1025))` in degrees lies
in `[91.75, 91.85)`. -/
lemma gamma_deg_bracket :
    91.75 ≤ Real.arccos (-2 / (2 * Real.sqrt 1025)) * 180 / Real.pi ∧
    Real.arccos (-2 / (2 * Real.sqrt 1025)) * 180 / Real.pi < 91.85 := by
  have hs1 : (32.0156:ℝ) ≤ Real.sqrt 1025 := by
    rw [show (32.0156:ℝ) = Real.sqrt (32.0156 ^ 2) from (Real.sqrt_sq (by norm_num)).symm]
    exact Real.sqrt_le_sqrt (by norm_num)
  have hs2 : Real.sqrt 1025 ≤ 32.0157 := by
    rw [show (32.0157:ℝ) = Real.sqrt (32.0157 ^ 2) from (Real.sqrt_sq (by norm_num)).symm]
    exact Real.sqrt_le_sqrt (by norm_num)
  have hc_ub : -2 / (2 * Real.sqrt 1025) ≤ -0.0312346 := by
    rw [div_le_iff₀ (by positivity)]
    nlinarith
  have hc_lb : (-0.0312348:ℝ) ≤ -2 / (2 * Real.sqrt 1025) := by
    rw [le_div_iff₀ (by positivity)]
    nlinarith
  refine @arccos_deg_bracket (-2 / (2 * Real.sqrt 1025)) 91.75 91.85
    1.6013398 1.6030845
    (by linarith) (by linarith) (by norm_num) (by norm_num) (by norm_num)
    ?_ ?_ (by norm_num) ?_ ?_ ?_
  · nlinarith [Real.pi_lt_d6]
  · nlinarith [Real.pi_gt_d2]
  · nlinarith [Real.pi_gt_d6]
  · have : (-0.0312346:ℝ) ≤ 1 - 1.6013398 ^ 2 / 2 + 1.6013398 ^ 4 / 24
        - 1.6013398 ^ 6 / 720 + 1.6013398 ^ 8 / 40320 - 1.6013398 ^ 10 / 3628800 := by
      norm_num
    linarith
  · have : (1:ℝ) - 1.6030845 ^ 2 / 2 + 1.6030845 ^ 4 / 24 - 1.6030845 ^ 6 / 720
        + 1.6030845 ^ 8 / 40320 < -0.0312348 := by
      norm_num
    linarith

/-- C3. Each triangle interior angle is computed by the law of cosines
`acos((adj1^2 + adj2^2 - opp^2) / (2*adj1*adj2)) * 180/π` with the mapping
`alpha = f(ab, ca, bc)`, `beta = f(bc, ab, ca)`, `gamma = f(ca, bc, ab)`;
for points `(4,7)`, `(12,9)`, `(8,12)` the angles round half-away-from-zero
at one decimal to `alpha = 37.3`, `beta = 50.9`, `gamma = 91.8`. -/
theorem triangle_angles_law_of_cosines :
    (∀ x y z : F32, Triangle.get_angle x y z
      = (((((x.pow2).add (y.pow2)).sub (z.pow2)).div
          (((F32.fin 2).mul x).mul y)).acos.mul (F32.fin 180)).div F32.pi) ∧
    (∀ a b c : Point,
      (Triangle.new a b c).alphaM.map Prod.fst
        = some (Triangle.get_angle ((Vector.new a b).lengthM.1)
            ((Vector.new c a).lengthM.1) ((Vector.new b c).lengthM.1)) ∧
      (Triangle.new a b c).betaM.map Prod.fst
        = some (Triangle.get_angle ((Vector.new b c).lengthM.1)
            ((Vector.new a b).lengthM.1) ((Vector.new c a).lengthM.1)) ∧
      (Triangle.new a b c).gammaM.map Prod.fst
        = some (Triangle.get_angle ((Vector.new c a).lengthM.1)
            ((Vector.new b c).lengthM.1) ((Vector.new a b).lengthM.1))) ∧
    (∃ t : Triangle,
      Triangle.new_initialized ⟨F32.fin 4, F32.fin 7⟩ ⟨F32.fin 12, F32.fin 9⟩
          ⟨F32.fin 8, F32.fin 12⟩ = some t ∧
      (∃ av, t.alpha = some (F32.fin av) ∧ half_away_from_zero av 1 = 37.3) ∧
      (∃ bv, t.beta = some (F32.fin bv) ∧ half_away_from_zero bv 1 = 50.9) ∧
      (∃ gv, t.gamma = some (F32.fin gv) ∧ half_away_from_zero gv 1 = 91.8)) := by
  have h25 : Real.sqrt 25 = 5 := by
    rw [show (25:ℝ) = 5 ^ 2 by norm_num]
    exact Real.sqrt_sq (by norm_num)
  have hAB : (Vector.new ⟨F32.fin 4, F32.fin 7⟩ ⟨F32.fin 12, F32.fin 9⟩).lengthM.1
      = F32.fin (Real.sqrt 68) := by
    rw [Vector.lengthM_fin]
    norm_num
  have hBC : (Vector.new ⟨F32.fin 12, F32.fin 9⟩ ⟨F32.fin 8, F32.fin 12⟩).lengthM.1
      = F32.fin 5 := by
    rw [Vector.lengthM_fin]
    norm_num [h25]
  have hCA : (Vector.new ⟨F32.fin 8, F32.fin 12⟩ ⟨F32.fin 4, F32.fin 7⟩).lengthM.1
      = F32.fin (Real.sqrt 41) := by
    rw [Vector.lengthM_fin]
    norm_num
  have hsq68 : Real.sqrt 68 ^ 2 = 68 := Real.sq_sqrt (by norm_num)
  have hsq41 : Real.sqrt 41 ^ 2 = 41 := Real.sq_sqrt (by norm_num)
  have h68pos : (0:ℝ) < Real.sqrt 68 := Real.sqrt_pos.2 (by norm_num)
  have h41pos : (0:ℝ) < Real.sqrt 41 := Real.sqrt_pos.2 (by norm_num)
  have hprodA : Real.sqrt 68 * Real.sqrt 41 = Real.sqrt 2788 := by
    rw [show (2788:ℝ) = 68 * 41 by norm_num, Real.sqrt_mul (by norm_num)]
  have hprodB : Real.sqrt 1700 = 5 * Real.sqrt 68 := by
    rw [show (1700:ℝ) = 5 ^ 2 * 68 by norm_num, Real.sqrt_mul (by norm_num),
      Real.sqrt_sq (by norm_num)]
  have hprodC : Real.sqrt 1025 = 5 * Real.sqrt 41 := by
    rw [show (1025:ℝ) = 5 ^ 2 * 41 by norm_num, Real.sqrt_mul (by norm_num),
      Real.sqrt_sq (by norm_num)]
  have hceqA : (Real.sqrt 68 ^ 2 + Real.sqrt 41 ^ 2 - 5 ^ 2)
      / (2 * Real.sqrt 68 * Real.sqrt 41) = 84 / (2 * Real.sqrt 2788) := by
    rw [hsq68, hsq41, mul_assoc, hprodA]
    norm_num
  have hceqB : ((5:ℝ) ^ 2 + Real.sqrt 68 ^ 2 - Real.sqrt 41 ^ 2)
      / (2 * 5 * Real.sqrt 68) = 52 / (2 * Real.sqrt 1700) := by
    rw [hsq68, hsq41, hprodB]
    norm_num
    ring_nf
  have hceqC : (Real.sqrt 41 ^ 2 + (5:ℝ) ^ 2 - Real.sqrt 68 ^ 2)
      / (2 * Real.sqrt 41 * 5) = -2 / (2 * Real.sqrt 1025) := by
    rw [hsq68, hsq41, hprodC]
    norm_num
    ring_nf
  have h2788 : (42:ℝ) ≤ Real.sqrt 2788 := by
    rw [show (42:ℝ) = Real.sqrt (42 ^ 2) from (Real.sqrt_sq (by norm_num)).symm]
    exact Real.sqrt_le_sqrt (by norm_num)
  have h1700 : (26:ℝ) ≤ Real.sqrt 1700 := by
    rw [show (26:ℝ) = Real.sqrt (26 ^ 2) from (Real.sqrt_sq (by norm_num)).symm]
    exact Real.sqrt_le_sqrt (by norm_num)
  have h1025 : (1:ℝ) ≤ Real.sqrt 1025 := by
    rw [show (1:ℝ) = Real.sqrt (1 ^ 2) from (Real.sqrt_sq (by norm_num)).symm]
    exact Real.sqrt_le_sqrt (by norm_num)
  have hα : Triangle.get_angle
      ((Vector.new ⟨F32.fin 4, F32.fin 7⟩ ⟨F32.fin 12, F32.fin 9⟩).lengthM.1)
      ((Vector.new ⟨F32.fin 8, F32.fin 12⟩ ⟨F32.fin 4, F32.fin 7⟩).lengthM.1)
      ((Vector.new ⟨F32.fin 12, F32.fin 9⟩ ⟨F32.fin 8, F32.fin 12⟩).lengthM.1)
      = F32.fin (Real.arccos (84 / (2 * Real.sqrt 2788)) * 180 / Real.pi) := by
    rw [hAB, hCA, hBC, Triangle.get_angle_fin h68pos h41pos
      (by
        rw [hceqA]
        have h0 : (0:ℝ) ≤ 84 / (2 * Real.sqrt 2788) := by positivity
        linarith)
      (by rw [hceqA, div_le_one (by positivity)]; linarith), hceqA]
  have hβ : Triangle.get_angle
      ((Vector.new ⟨F32.fin 12, F32.fin 9⟩ ⟨F32.fin 8, F32.fin 12⟩).lengthM.1)
      ((Vector.new ⟨F32.fin 4, F32.fin 7⟩ ⟨F32.fin 12, F32.fin 9⟩).lengthM.1)
      ((Vector.new ⟨F32.fin 8, F32.fin 12⟩ ⟨F32.fin 4, F32.fin 7⟩).lengthM.1)
      = F32.fin (Real.arccos (52 / (2 * Real.sqrt 1700)) * 180 / Real.pi) := by
    rw [hBC, hAB, hCA, Triangle.get_angle_fin (by norm_num) h68pos
      (by
        rw [hceqB]
        have h0 : (0:ℝ) ≤ 52 / (2 * Real.sqrt 1700) := by positivity
        linarith)
      (by rw [hceqB, div_le_one (by positivity)]; linarith), hceqB]
  have hγ : Triangle.get_angle
      ((Vector.new ⟨F32.fin 8, F32.fin 12⟩ ⟨F32.fin 4, F32.fin 7⟩).lengthM.1)
      ((Vector.new ⟨F32.fin 12, F32.fin 9⟩ ⟨F32.fin 8, F32.fin 12⟩).lengthM.1)
      ((Vector.new ⟨F32.fin 4, F32.fin 7⟩ ⟨F32.fin 12, F32.fin 9⟩).lengthM.1)
      = F32.fin (Real.arccos (-2 / (2 * Real.sqrt 1025)) * 180 / Real.pi) := by
    rw [hCA, hBC, hAB, Triangle.get_angle_fin h41pos (by norm_num)
      (by
        rw [hceqC]
        have hp : (0:ℝ) < 2 * Real.sqrt 1025 := by positivity
        rw [le_div_iff₀ hp]
        nlinarith)
      (by
        rw [hceqC, div_le_one (by positivity : (0:ℝ) < 2 * Real.sqrt 1025)]
        linarith), hceqC]
  refine ⟨fun x y z => rfl, fun a b c => ⟨rfl, rfl, rfl⟩, ?_⟩
  refine ⟨_, Triangle.init_angles_of_some rfl rfl rfl,
    ⟨Real.arccos (84 / (2 * Real.sqrt 2788)) * 180 / Real.pi, congrArg some hα, ?_⟩,
    ⟨Real.arccos (52 / (2 * Real.sqrt 1700)) * 180 / Real.pi, congrArg some hβ, ?_⟩,
    ⟨Real.arccos (-2 / (2 * Real.sqrt 1025)) * 180 / Real.pi, congrArg some hγ, ?_⟩⟩
  · obtain ⟨hb1, hb2⟩ := alpha_deg_bracket
    have h373 := @half_away_eq_of_bounds
      (Real.arccos (84 / (2 * Real.sqrt 2788)) * 180 / Real.pi) 373
      (by linarith) (by push_cast; linarith) (by push_cast; linarith)
    rw [h373]
    norm_num
  · obtain ⟨hb1, hb2⟩ := beta_deg_bracket
    have h509 := @half_away_eq_of_bounds
      (Real.arccos (52 / (2 * Real.sqrt 1700)) * 180 / Real.pi) 509
      (by linarith) (by push_cast; linarith) (by push_cast; linarith)
    rw [h509]
    norm_num
  · obtain ⟨hb1, hb2⟩ := gamma_deg_bracket
    have h918 := @half_away_eq_of_bounds
      (Real.arccos (-2 / (2 * Real.sqrt 1025)) * 180 / Real.pi) 918
      (by linarith) (by push_cast; linarith) (by push_cast; linarith)
    rw [h918]
    norm_num

/-- A coordinate pair as a point of the Euclidean plane. -/
def pt (x y : ℝ) : EuclideanSpace ℝ (Fin 2) := ![x, y]

/-- Distance in the Euclidean plane between two coordinate pairs, matching
the code's `sqrt(dx^2 + dy^2)`. -/
lemma dist_mk (x1 y1 x2 y2 : ℝ) :
    dist (pt x1 y1) (pt x2 y2) = Real.sqrt ((x1 - x2) ^ 2 + (y1 - y2) ^ 2) := by
  rw [EuclideanSpace.dist_eq]
  congr 1
  rw [Fin.sum_univ_two]
  simp [pt, Real.dist_eq, sq_abs]

/-- The law of cosines solved for the cosine of the angle at `p2`. -/
lemma cos_angle_eq {p1 p2 p3 : EuclideanSpace ℝ (Fin 2)}
    (h1 : dist p1 p2 ≠ 0) (h3 : dist p3 p2 ≠ 0) :
    Real.cos (EuclideanGeometry.angle p1 p2 p3)
      = (dist p1 p2 ^ 2 + dist p3 p2 ^ 2 - dist p1 p3 ^ 2)
        / (2 * dist p1 p2 * dist p3 p2) := by
  have h := EuclideanGeometry.law_cos p1 p2 p3
  field_simp
  nlinarith [h]

/-- C8. For every triangle whose three points form a valid non-degenerate
triangle (the three computed side lengths satisfy the strict triangle
inequality), the three computed interior angles are finite and
`alpha + beta + gamma` equals `180.0` within `1e-3` degrees — in this exact
model the sum is exactly `180`. -/
theorem triangle_angle_sum_180 (a1 a2 b1 b2 c1 c2 : ℝ)
    (h1 : Real.sqrt ((a1 - b1) ^ 2 + (a2 - b2) ^ 2)
      < Real.sqrt ((b1 - c1) ^ 2 + (b2 - c2) ^ 2)
        + Real.sqrt ((c1 - a1) ^ 2 + (c2 - a2) ^ 2))
    (h2 : Real.sqrt ((b1 - c1) ^ 2 + (b2 - c2) ^ 2)
      < Real.sqrt ((c1 - a1) ^ 2 + (c2 - a2) ^ 2)
        + Real.sqrt ((a1 - b1) ^ 2 + (a2 - b2) ^ 2))
    (h3 : Real.sqrt ((c1 - a1) ^ 2 + (c2 - a2) ^ 2)
      < Real.sqrt ((a1 - b1) ^ 2 + (a2 - b2) ^ 2)
        + Real.sqrt ((b1 - c1) ^ 2 + (b2 - c2) ^ 2)) :
    ∃ (t : Triangle) (av bv gv : ℝ),
      Triangle.new_initialized ⟨F32.fin a1, F32.fin a2⟩ ⟨F32.fin b1, F32.fin b2⟩
        ⟨F32.fin c1, F32.fin c2⟩ = some t ∧
      t.alpha = some (F32.fin av) ∧ t.beta = some (F32.fin bv) ∧
      t.gamma = some (F32.fin gv) ∧ av + bv + gv = 180 ∧
      |av + bv + gv - 180| ≤ 1 / 1000 := by
  set L1 := Real.sqrt ((a1 - b1) ^ 2 + (a2 - b2) ^ 2) with hL1def
  set L2 := Real.sqrt ((b1 - c1) ^ 2 + (b2 - c2) ^ 2) with hL2def
  set L3 := Real.sqrt ((c1 - a1) ^ 2 + (c2 - a2) ^ 2) with hL3def
  have hL1n : 0 ≤ L1 := Real.sqrt_nonneg _
  have hL2n : 0 ≤ L2 := Real.sqrt_nonneg _
  have hL3n : 0 ≤ L3 := Real.sqrt_nonneg _
  have hL1p : 0 < L1 := by linarith
  have hL2p : 0 < L2 := by linarith
  have hL3p : 0 < L3 := by linarith
  have hAB : (Vector.new ⟨F32.fin a1, F32.fin a2⟩ ⟨F32.fin b1, F32.fin b2⟩).lengthM.1
      = F32.fin L1 := by
    rw [Vector.lengthM_fin, ← hL1def]
  have hBC : (Vector.new ⟨F32.fin b1, F32.fin b2⟩ ⟨F32.fin c1, F32.fin c2⟩).lengthM.1
      = F32.fin L2 := by
    rw [Vector.lengthM_fin, ← hL2def]
  have hCA : (Vector.new ⟨F32.fin c1, F32.fin c2⟩ ⟨F32.fin a1, F32.fin a2⟩).lengthM.1
      = F32.fin L3 := by
    rw [Vector.lengthM_fin, ← hL3def]
  have hdAB : dist (pt a1 a2) (pt b1 b2) = L1 := by rw [dist_mk, ← hL1def]
  have hdBC : dist (pt b1 b2) (pt c1 c2) = L2 := by rw [dist_mk, ← hL2def]
  have hdCA : dist (pt c1 c2) (pt a1 a2) = L3 := by rw [dist_mk, ← hL3def]
  have hdBA : dist (pt b1 b2) (pt a1 a2) = L1 := by rw [dist_comm]; exact hdAB
  have hdCB : dist (pt c1 c2) (pt b1 b2) = L2 := by rw [dist_comm]; exact hdBC
  have hdAC : dist (pt a1 a2) (pt c1 c2) = L3 := by rw [dist_comm]; exact hdCA
  have hcosA : Real.cos (EuclideanGeometry.angle (pt b1 b2) (pt a1 a2) (pt c1 c2))
      = (L1 ^ 2 + L3 ^ 2 - L2 ^ 2) / (2 * L1 * L3) := by
    rw [cos_angle_eq (by rw [hdBA]; exact hL1p.ne') (by rw [hdCA]; exact hL3p.ne'),
      hdBA, hdCA, hdBC]
  have hcosB : Real.cos (EuclideanGeometry.angle (pt c1 c2) (pt b1 b2) (pt a1 a2))
      = (L2 ^ 2 + L1 ^ 2 - L3 ^ 2) / (2 * L2 * L1) := by
    rw [cos_angle_eq (by rw [hdCB]; exact hL2p.ne') (by rw [hdAB]; exact hL1p.ne'),
      hdCB, hdAB, hdCA]
  have hcosC : Real.cos (EuclideanGeometry.angle (pt a1 a2) (pt c1 c2) (pt b1 b2))
      = (L3 ^ 2 + L2 ^ 2 - L1 ^ 2) / (2 * L3 * L2) := by
    rw [cos_angle_eq (by rw [hdAC]; exact hL3p.ne') (by rw [hdBC]; exact hL2p.ne'),
      hdAC, hdBC, hdAB]
  have haA : Real.arccos ((L1 ^ 2 + L3 ^ 2 - L2 ^ 2) / (2 * L1 * L3))
      = EuclideanGeometry.angle (pt b1 b2) (pt a1 a2) (pt c1 c2) := by
    rw [← hcosA, Real.arccos_cos (EuclideanGeometry.angle_nonneg _ _ _)
      (EuclideanGeometry.angle_le_pi _ _ _)]
  have haB : Real.arccos ((L2 ^ 2 + L1 ^ 2 - L3 ^ 2) / (2 * L2 * L1))
      = EuclideanGeometry.angle (pt c1 c2) (pt b1 b2) (pt a1 a2) := by
    rw [← hcosB, Real.arccos_cos (EuclideanGeometry.angle_nonneg _ _ _)
      (EuclideanGeometry.angle_le_pi _ _ _)]
  have haC : Real.arccos ((L3 ^ 2 + L2 ^ 2 - L1 ^ 2) / (2 * L3 * L2))
      = EuclideanGeometry.angle (pt a1 a2) (pt c1 c2) (pt b1 b2) := by
    rw [← hcosC, Real.arccos_cos (EuclideanGeometry.angle_nonneg _ _ _)
      (EuclideanGeometry.angle_le_pi _ _ _)]
  have hBA : pt b1 b2 ≠ pt a1 a2 := dist_pos.1 (by rw [hdBA]; exact hL1p)
  have hCA2 : pt c1 c2 ≠ pt a1 a2 := dist_pos.1 (by rw [hdCA]; exact hL3p)
  have hsum := EuclideanGeometry.angle_add_angle_add_angle_eq_pi hBA hCA2
  have hradsum : Real.arccos ((L1 ^ 2 + L3 ^ 2 - L2 ^ 2) / (2 * L1 * L3))
      + Real.arccos ((L2 ^ 2 + L1 ^ 2 - L3 ^ 2) / (2 * L2 * L1))
      + Real.arccos ((L3 ^ 2 + L2 ^ 2 - L1 ^ 2) / (2 * L3 * L2)) = Real.pi := by
    rw [haA, haB, haC,
      EuclideanGeometry.angle_comm (pt b1 b2) (pt a1 a2) (pt c1 c2),
      EuclideanGeometry.angle_comm (pt c1 c2) (pt b1 b2) (pt a1 a2),
      EuclideanGeometry.angle_comm (pt a1 a2) (pt c1 c2) (pt b1 b2)]
    linarith [hsum]
  have hvalA : Triangle.get_angle
      ((Vector.new ⟨F32.fin a1, F32.fin a2⟩ ⟨F32.fin b1, F32.fin b2⟩).lengthM.1)
      ((Vector.new ⟨F32.fin c1, F32.fin c2⟩ ⟨F32.fin a1, F32.fin a2⟩).lengthM.1)
      ((Vector.new ⟨F32.fin b1, F32.fin b2⟩ ⟨F32.fin c1, F32.fin c2⟩).lengthM.1)
      = F32.fin (Real.arccos ((L1 ^ 2 + L3 ^ 2 - L2 ^ 2) / (2 * L1 * L3))
          * 180 / Real.pi) := by
    rw [hAB, hCA, hBC, Triangle.get_angle_fin hL1p hL3p
      (by rw [← hcosA]; exact Real.neg_one_le_cos _)
      (by rw [← hcosA]; exact Real.cos_le_one _)]
  have hvalB : Triangle.get_angle
      ((Vector.new ⟨F32.fin b1, F32.fin b2⟩ ⟨F32.fin c1, F32.fin c2⟩).lengthM.1)
      ((Vector.new ⟨F32.fin a1, F32.fin a2⟩ ⟨F32.fin b1, F32.fin b2⟩).lengthM.1)
      ((Vector.new ⟨F32.fin c1, F32.fin c2⟩ ⟨F32.fin a1, F32.fin a2⟩).lengthM.1)
      = F32.fin (Real.arccos ((L2 ^ 2 + L1 ^ 2 - L3 ^ 2) / (2 * L2 * L1))
          * 180 / Real.pi) := by
    rw [hBC, hAB, hCA, Triangle.get_angle_fin hL2p hL1p
      (by rw [← hcosB]; exact Real.neg_one_le_cos _)
      (by rw [← hcosB]; exact Real.cos_le_one _)]
  have hvalC : Triangle.get_angle
      ((Vector.new ⟨F32.fin c1, F32.fin c2⟩ ⟨F32.fin a1, F32.fin a2⟩).lengthM.1)
      ((Vector.new ⟨F32.fin b1, F32.fin b2⟩ ⟨F32.fin c1, F32.fin c2⟩).lengthM.1)
      ((Vector.new ⟨F32.fin a1, F32.fin a2⟩ ⟨F32.fin b1, F32.fin b2⟩).lengthM.1)
      = F32.fin (Real.arccos ((L3 ^ 2 + L2 ^ 2 - L1 ^ 2) / (2 * L3 * L2))
          * 180 / Real.pi) := by
    rw [hCA, hBC, hAB, Triangle.get_angle_fin hL3p hL2p
      (by rw [← hcosC]; exact Real.neg_one_le_cos _)
      (by rw [← hcosC]; exact Real.cos_le_one _)]
  have hs : Real.arccos ((L1 ^ 2 + L3 ^ 2 - L2 ^ 2) / (2 * L1 * L3)) * 180 / Real.pi
      + Real.arccos ((L2 ^ 2 + L1 ^ 2 - L3 ^ 2) / (2 * L2 * L1)) * 180 / Real.pi
      + Real.arccos ((L3 ^ 2 + L2 ^ 2 - L1 ^ 2) / (2 * L3 * L2)) * 180 / Real.pi
      = 180 := by
    rw [div_add_div_same, div_add_div_same]
    rw [show Real.arccos ((L1 ^ 2 + L3 ^ 2 - L2 ^ 2) / (2 * L1 * L3)) * 180
        + Real.arccos ((L2 ^ 2 + L1 ^ 2 - L3 ^ 2) / (2 * L2 * L1)) * 180
        + Real.arccos ((L3 ^ 2 + L2 ^ 2 - L1 ^ 2) / (2 * L3 * L2)) * 180
        = 180 * Real.pi by linarith [hradsum]]
    exact mul_div_cancel_right₀ 180 Real.pi_ne_zero
  refine ⟨_, Real.arccos ((L1 ^ 2 + L3 ^ 2 - L2 ^ 2) / (2 * L1 * L3)) * 180 / Real.pi,
    Real.arccos ((L2 ^ 2 + L1 ^ 2 - L3 ^ 2) / (2 * L2 * L1)) * 180 / Real.pi,
    Real.arccos ((L3 ^ 2 + L2 ^ 2 - L1 ^ 2) / (2 * L3 * L2)) * 180 / Real.pi,
    Triangle.init_angles_of_some rfl rfl rfl,
    congrArg some hvalA, congrArg some hvalB, congrArg some hvalC, hs, ?_⟩
  rw [hs]
  norm_num

/-- Witness for the angle-sum theorem at the concrete 3-4-5 right triangle
`(0,0)`, `(3,0)`, `(0,4)`, discharging the strict triangle inequalities. -/
theorem triangle_angle_sum_180_witness :
    ∃ (t : Triangle) (av bv gv : ℝ),
      Triangle.new_initialized ⟨F32.fin 0, F32.fin 0⟩ ⟨F32.fin 3, F32.fin 0⟩
        ⟨F32.fin 0, F32.fin 4⟩ = some t ∧
      t.alpha = some (F32.fin av) ∧ t.beta = some (F32.fin bv) ∧
      t.gamma = some (F32.fin gv) ∧ av + bv + gv = 180 ∧
      |av + bv + gv - 180| ≤ 1 / 1000 := by
  have e1 : Real.sqrt (((0:ℝ) - 3) ^ 2 + ((0:ℝ) - 0) ^ 2) = 3 := by
    rw [show ((0:ℝ) - 3) ^ 2 + ((0:ℝ) - 0) ^ 2 = 3 ^ 2 by norm_num]
    exact Real.sqrt_sq (by norm_num)
  have e2 : Real.sqrt (((3:ℝ) - 0) ^ 2 + ((0:ℝ) - 4) ^ 2) = 5 := by
    rw [show ((3:ℝ) - 0) ^ 2 + ((0:ℝ) - 4) ^ 2 = 5 ^ 2 by norm_num]
    exact Real.sqrt_sq (by norm_num)
  have e3 : Real.sqrt (((0:ℝ) - 0) ^ 2 + ((4:ℝ) - 0) ^ 2) = 4 := by
    rw [show ((0:ℝ) - 0) ^ 2 + ((4:ℝ) - 0) ^ 2 = 4 ^ 2 by norm_num]
    exact Real.sqrt_sq (by norm_num)
  exact triangle_angle_sum_180 0 0 3 0 0 4
    (by rw [e1, e2, e3]; norm_num)
    (by rw [e2, e3, e1]; norm_num)
    (by rw [e3, e1, e2]; norm_num)

end Trig
